import Mathlib

/-!
# NarkoHotel: booking price engine and room occupancy

A shallow embedding of `NarkoHotel.cpp`.

Modelling conventions, applied uniformly:

* `double` values are rationals (`ℚ`).  The booking flows compute with them
  exactly; the two methods that return a computed `double`, `calculateTotal` and
  `getOccupancyRate`, also have a rounded reading (`calculateTotalDouble`,
  `getOccupancyRateDouble`) in which every operation is rounded to 53 significant
  bits, ties to even (`roundDouble`).
* `int` values are integers in the range `[-2^31, 2^31)`.  Signed addition
  wraps modulo `2^32` (`wrapInt32`).  A conversion `static_cast<int>(d)` of a
  `double` whose truncation does not fit has no defined result and is the
  fault `Fault.undefined` (`toInt`).
* `std::unordered_map<string, T>` is an association list keyed by `String`
  (`UMap`); `at` (here `atKey`) on a missing key is the fault `Fault.out_of_range`.
* A `Client*` is the key of the client in the global `clients` map (the only
  place `Client` objects live); `nullptr` is `none`.
* Console output is reduced to the status lines printed; prompts, listings and
  the printed booking summary are left out.  Console input is taken as the values
  the extraction operators deliver.
-/

namespace NarkoHotel

/-! ## Machine arithmetic -/

/-- Faults that end a computation: an exception thrown by `unordered_map::at`,
behaviour the language leaves undefined, or a loop that never terminates. -/
inductive Fault where
  | out_of_range
  | undefined
  | diverges
  deriving DecidableEq, Repr

/-- Smallest value of a 32-bit `int`. -/
def INT_MIN : Int := -2147483648

/-- Largest value of a 32-bit `int`. -/
def INT_MAX : Int := 2147483647

/-- Two's complement wrap-around of a mathematical integer into `int`. -/
def wrapInt32 (z : Int) : Int := (z + 2147483648) % 4294967296 - 2147483648

/-- Truncation toward zero, the rounding of a `double` to integer conversion. -/
def truncToInt (x : ℚ) : Int := if 0 ≤ x then ⌊x⌋ else ⌈x⌉

/-- The conversion `static_cast<int>(x)` of a `double`: truncation toward zero,
undefined when the truncated value is not representable. -/
def toInt (x : ℚ) : Except Fault Int :=
  if INT_MIN ≤ truncToInt x ∧ truncToInt x ≤ INT_MAX then .ok (truncToInt x)
  else .error .undefined

/-! ## unordered_map -/

/-- An `unordered_map<string, β>` as an association list. -/
abbrev UMap (β : Type) := List (String × β)

namespace UMap

variable {β : Type}

/-- The lookup `m.find(k)`: the mapped value, or `none` for `end()`. -/
def find (m : UMap β) (k : String) : Option β := List.lookup k m

/-- The checked access `m.at(k)`, throwing `out_of_range` on a missing key. -/
def atKey (m : UMap β) (k : String) : Except Fault β :=
  match m.find k with
  | some v => .ok v
  | none => .error .out_of_range

/-- The assignment `m[k] = v`: afterwards `k` has exactly one entry. -/
def set (m : UMap β) (k : String) (v : β) : UMap β :=
  (k, v) :: m.filter (fun e => e.1 ≠ k)

/-- The element count `m.size()`. -/
def size (m : UMap β) : Nat := m.length

/-- The keys of the map. -/
def keys (m : UMap β) : List String := m.map Prod.fst

end UMap

/-! ## ServiceType -/

/-- The scoped enumeration `ServiceType`, whose underlying type is `int`: every
`int` converts to it by `static_cast`. -/
structure ServiceType where
  code : Int
  deriving DecidableEq, Repr

namespace ServiceType

def Breakfast : ServiceType := ⟨1⟩
def Lunch : ServiceType := ⟨2⟩
def Dinner : ServiceType := ⟨3⟩
def FullMeal : ServiceType := ⟨4⟩
def Sauna : ServiceType := ⟨5⟩
def Pool : ServiceType := ⟨6⟩
def BathAccessories : ServiceType := ⟨7⟩
def Laundry : ServiceType := ⟨8⟩

end ServiceType

/-! ## Client -/

/-- The class `Client`. -/
structure Client where
  name : String
  bonusPoints : Int
  deriving DecidableEq, Repr

namespace Client

/-- The constructor `Client(clientName)`. -/
def new (clientName : String) : Client := ⟨clientName, 0⟩

/-- The method `addBonusPoints(amount)`:
`bonusPoints += static_cast<int>(amount / 20)`. -/
def addBonusPoints (c : Client) (amount : ℚ) : Except Fault Client :=
  match toInt (amount / 20) with
  | .ok d => .ok { c with bonusPoints := wrapInt32 (c.bonusPoints + d) }
  | .error f => .error f

/-- The method `getBonusPoints()`. -/
def getBonusPoints (c : Client) : Int := c.bonusPoints

/-- The method `getDiscount()`: `int discount = (bonusPoints / 5000) * 5`, capped
at 75 and returned as `double`.  The `int` division truncates toward zero; the
product is at most `|bonusPoints|`, so it cannot overflow. -/
def getDiscount (c : Client) : ℚ :=
  let discount : Int := (Int.tdiv c.bonusPoints 5000) * 5
  if discount > 75 then 75 else (discount : ℚ)

end Client

/-- The global `clients` map. -/
abbrev Clients := UMap Client

/-! ## Booking -/

/-- The class `Booking`; `client` is the pointer field. -/
structure Booking where
  roomNumber : String
  roomType : String
  nights : Int
  basePrice : ℚ
  serviceCost : ℚ
  discount : ℚ
  occupancyRate : ℚ
  client : Option String
  deriving DecidableEq, Repr

namespace Booking

/-- The constructor `Booking(roomNum, roomT, n, price, occupancy, c)`: the fields
are initialised and, when `c` is not null, `c->addBonusPoints(price * nights)`
runs.  Dereferencing a pointer to no client is undefined. -/
def new (roomNum roomT : String) (n : Int) (price occupancy : ℚ)
    (c : Option String) (clients : Clients) : Except Fault (Booking × Clients) :=
  let b : Booking :=
    { roomNumber := roomNum, roomType := roomT, nights := n, basePrice := price,
      serviceCost := 0, discount := 0, occupancyRate := occupancy, client := c }
  match c with
  | none => .ok (b, clients)
  | some k =>
    match clients.find k with
    | none => .error .undefined
    | some cl =>
      match cl.addBonusPoints (price * n) with
      | .ok cl' => .ok (b, clients.set k cl')
      | .error f => .error f

/-- The method `getRoomNumber()`. -/
def getRoomNumber (b : Booking) : String := b.roomNumber

/-- The `switch` of `addService`: the price assigned to `servicePrice`, or `none`
in the `default` branch. -/
def servicePrice (service : ServiceType) : Option ℚ :=
  if service = ServiceType.Breakfast then some 300
  else if service = ServiceType.Lunch then some 500
  else if service = ServiceType.Dinner then some 400
  else if service = ServiceType.FullMeal then
    let servicePrice : ℚ := 300 + 500 + 400
    some (servicePrice - servicePrice * (15 / 100))
  else if service = ServiceType.Sauna then some 650
  else if service = ServiceType.Pool then some 700
  else if service = ServiceType.BathAccessories then some 340
  else if service = ServiceType.Laundry then some 1200
  else none

/-- The method `addService(service)`: returns the booking and the lines printed. -/
def addService (b : Booking) (service : ServiceType) : Booking × List String :=
  match servicePrice service with
  | some p => ({ b with serviceCost := b.serviceCost + p }, [])
  | none => (b, ["Неизвестная услуга!"])

/-- The method `applyDiscount(percent)`. -/
def applyDiscount (b : Booking) (percent : ℚ) : Booking :=
  { b with discount := percent }

/-- The method `calculateTotal()`, every operation computed exactly; the rounded
reading is `calculateTotalDouble`. -/
def calculateTotal (b : Booking) (clients : Clients) : Except Fault ℚ :=
  match toInt b.occupancyRate with
  | .error f => .error f
  | .ok occ =>
    let dynamicPrice : ℚ := b.basePrice * (1 + ((Int.tdiv occ 10 : Int) : ℚ) * (5 / 100))
    let total : ℚ := (dynamicPrice * b.nights + b.serviceCost) * (1 - b.discount / 100)
    match b.client with
    | none => .ok total
    | some k =>
      match clients.find k with
      | none => .error .undefined
      | some cl => .ok (total - total * (cl.getDiscount / 100))

end Booking

/-! ## RoomManager -/

/-- The class `RoomManager`: `rooms` maps a room number to (type, nightly price),
`occupiedRooms` maps a room number to its occupancy flag. -/
structure RoomManager where
  rooms : UMap (String × ℚ)
  occupiedRooms : UMap Bool
  deriving DecidableEq, Repr

namespace RoomManager

/-- The constructor `RoomManager(roomDetails)`: every room is marked vacant. -/
def new (roomDetails : UMap (String × ℚ)) : RoomManager :=
  { rooms := roomDetails
    occupiedRooms := roomDetails.foldl (fun occ room => occ.set room.1 false) [] }

/-- The method `isAvailable(roomNum)`:
`rooms.find(roomNum) != rooms.end() && !occupiedRooms.at(roomNum)`. -/
def isAvailable (rm : RoomManager) (roomNum : String) : Except Fault Bool :=
  match rm.rooms.find roomNum with
  | none => .ok false
  | some _ =>
    match rm.occupiedRooms.atKey roomNum with
    | .ok o => .ok (!o)
    | .error f => .error f

/-- The method `setOccupied(roomNum)`. -/
def setOccupied (rm : RoomManager) (roomNum : String) : RoomManager :=
  { rm with occupiedRooms := rm.occupiedRooms.set roomNum true }

/-- The method `setVacant(roomNum)`. -/
def setVacant (rm : RoomManager) (roomNum : String) : RoomManager :=
  { rm with occupiedRooms := rm.occupiedRooms.set roomNum false }

/-- The method `getAdjustedPrice(roomNum)`: `rooms.at(roomNum).second`. -/
def getAdjustedPrice (rm : RoomManager) (roomNum : String) : Except Fault ℚ :=
  match rm.rooms.atKey roomNum with
  | .ok room => .ok room.2
  | .error f => .error f

/-- The method `getOccupancyRate()`, computed exactly (the rounded reading is
`getOccupancyRateDouble`): the entries of `occupiedRooms` whose flag is
set are counted and divided by `rooms.size()`.  With no rooms the program divides
by zero in `double`; the model then yields `0`. -/
def getOccupancyRate (rm : RoomManager) : ℚ :=
  let totalRooms : Nat := rm.rooms.size
  let occupied : Nat := (rm.occupiedRooms.filter (fun p => p.2)).length
  ((occupied : ℚ) / (totalRooms : ℚ)) * 100

/-- The method `getRooms()`. -/
def getRooms (rm : RoomManager) : UMap (String × ℚ) := rm.rooms

end RoomManager

/-! ## main -/

/-- The room table `roomDetails` of `main`. -/
def roomDetails : UMap (String × ℚ) :=
  [ ("101", ("Single Room", 1000)), ("102", ("Double Room", 1500)),
    ("201", ("Suite", 3000)), ("202", ("Suite", 3200)),
    ("301", ("Single Room", 1100)), ("302", ("Double Room", 1600)),
    ("303", ("Suite", 3500)), ("401", ("Single Room", 1200)),
    ("402", ("Double Room", 1700)), ("403", ("Suite", 3800)),
    ("501", ("Single Room", 1300)), ("502", ("Double Room", 1800)),
    ("503", ("Suite", 4000)) ]

/-- The state `main` keeps between menu actions: the local `roomManager` and the
global `clients`. -/
structure HotelState where
  roomManager : RoomManager
  clients : Clients
  deriving DecidableEq, Repr

/-- The state of `main` on entry to the menu loop. -/
def HotelState.initial : HotelState :=
  { roomManager := RoomManager.new roomDetails, clients := [] }

/-- The values read from the console for one room: the room number, the night
count, the client name (empty for an anonymous client) and the integers that
`ss >> serviceChoice` extracts, in order, from the service line. -/
structure SlotInput where
  roomNum : String
  nights : Int
  clientName : String
  services : List Int
  deriving DecidableEq, Repr

/-- The client lookup of a booking: a null pointer for an empty name, otherwise
the entry `&clients[clientName]`, created with `Client(clientName)` when
`clients.find(clientName) == clients.end()`. -/
def lookupClient (clients : Clients) (clientName : String) : Option String × Clients :=
  if clientName = "" then (none, clients)
  else
    match clients.find clientName with
    | none => (some clientName, clients.set clientName (Client.new clientName))
    | some _ => (some clientName, clients)

/-- The service selection loop `while (ss >> serviceChoice)`: the extracted
integers are processed in order, `0` leaves the loop, every other value is cast
to `ServiceType` and passed to `addService`. -/
def selectServices (booking : Booking) : List Int → Booking × List String
  | [] => (booking, [])
  | serviceChoice :: rest =>
    if serviceChoice = 0 then (booking, [])
    else
      let r := booking.addService ⟨serviceChoice⟩
      let r' := selectServices r.1 rest
      (r'.1, r.2 ++ r'.2)

/-- The part of a booking flow between the availability check and the marking of
the room: client lookup, construction of the `Booking` with the room's price and
the current occupancy rate, and the service selection loop. -/
def makeBooking (rm : RoomManager) (clients : Clients) (inp : SlotInput) :
    Except Fault (Booking × Clients × List String) :=
  let lc := lookupClient clients inp.clientName
  match rm.getAdjustedPrice inp.roomNum with
  | .error f => .error f
  | .ok price =>
    let roomT := if price > 1500 then "Suite" else "Single Room"
    match Booking.new inp.roomNum roomT inp.nights price rm.getOccupancyRate lc.1 lc.2 with
    | .error f => .error f
    | .ok (booking, clients') =>
      let r := selectServices booking inp.services
      .ok (r.1, clients', r.2)

/-- The slot loop of the group booking, `for (int i = 0; i < numberOfRooms; ++i)`:
`remaining` is `numberOfRooms - i`.  A room that is not available prints a line
and the slot is asked again.  When the input ends the program asks forever. -/
def groupLoop (rm : RoomManager) :
    Nat → List SlotInput → Clients → List Booking → List String →
      Except Fault (List Booking × Clients × List String)
  | 0, _, clients, groupBookings, out => .ok (groupBookings, clients, out)
  | _ + 1, [], _, _, _ => .error .diverges
  | remaining + 1, inp :: rest, clients, groupBookings, out =>
    match rm.isAvailable inp.roomNum with
    | .error f => .error f
    | .ok false =>
      groupLoop rm (remaining + 1) rest clients groupBookings
        (out ++ ["Номер " ++ inp.roomNum ++ " уже занят."])
    | .ok true =>
      match makeBooking rm clients inp with
      | .error f => .error f
      | .ok (booking, clients', out') =>
        groupLoop rm remaining rest clients' (groupBookings ++ [booking]) (out ++ out')

/-- The summation `totalCost += booking->calculateTotal()` over the group,
started from `totalCost`. -/
def groupTotal (clients : Clients) : ℚ → List Booking → Except Fault ℚ
  | totalCost, [] => .ok totalCost
  | totalCost, booking :: rest =>
    match booking.calculateTotal clients with
    | .ok t => groupTotal clients (totalCost + t) rest
    | .error f => .error f

/-- Menu action 3, the group booking: the slot loop, the summation of the totals,
then `setOccupied` for the room of every booking made.  Returns the new state,
the bookings, the group total and the lines printed. -/
def groupBooking (st : HotelState) (numberOfRooms : Int) (inputs : List SlotInput) :
    Except Fault (HotelState × List Booking × ℚ × List String) :=
  match groupLoop st.roomManager numberOfRooms.toNat inputs st.clients [] [] with
  | .error f => .error f
  | .ok (groupBookings, clients, out) =>
    match groupTotal clients 0 groupBookings with
    | .error f => .error f
    | .ok totalCost =>
      .ok ({ roomManager := groupBookings.foldl
                (fun rm booking => rm.setOccupied booking.getRoomNumber) st.roomManager,
             clients := clients },
           groupBookings, totalCost, out)

/-- Menu action 2, the individual booking: a room that is not available prints a
line and ends the action; otherwise the booking is made, the room is marked
occupied and the booking is printed, which calls `calculateTotal`.  Returns the
new state, the booking with the total printed, and the lines printed. -/
def individualBooking (st : HotelState) (inp : SlotInput) :
    Except Fault (HotelState × Option (Booking × ℚ) × List String) :=
  match st.roomManager.isAvailable inp.roomNum with
  | .error f => .error f
  | .ok false => .ok (st, none, ["Выбранный номер уже занят."])
  | .ok true =>
    match makeBooking st.roomManager st.clients inp with
    | .error f => .error f
    | .ok (booking, clients', out) =>
      match booking.calculateTotal clients' with
      | .error f => .error f
      | .ok total =>
        .ok ({ roomManager := st.roomManager.setOccupied inp.roomNum, clients := clients' },
             some (booking, total), out)

/-- The scan of menu action 4 over `getRooms()` that sets `foundOccupied` when
some room is not available. -/
def foundOccupied (rm : RoomManager) : List (String × (String × ℚ)) → Except Fault Bool
  | [] => .ok false
  | room :: rest =>
    match rm.isAvailable room.1 with
    | .error f => .error f
    | .ok available =>
      match foundOccupied rm rest with
      | .error f => .error f
      | .ok found => .ok (!available || found)

/-- Menu action 4, the check-out: with no occupied room a line is printed and
nothing is read; otherwise the room number is read, an available room prints
that it is already free, and any other room number is passed to `setVacant` and
reported as released. -/
def checkOut (st : HotelState) (roomNum : String) : Except Fault (HotelState × List String) :=
  match foundOccupied st.roomManager st.roomManager.getRooms with
  | .error f => .error f
  | .ok false => .ok (st, ["Нет занятых номеров для выселения."])
  | .ok true =>
    match st.roomManager.isAvailable roomNum with
    | .error f => .error f
    | .ok true => .ok (st, ["Этот номер уже свободен."])
    | .ok false =>
      .ok ({ st with roomManager := st.roomManager.setVacant roomNum },
           ["Номер " ++ roomNum ++ " успешно освобожден."])

/-- A menu choice that can change the state, with the values entered for it. -/
inductive MenuAction where
  | individual (inp : SlotInput)
  | group (numberOfRooms : Int) (inputs : List SlotInput)
  | checkOut (roomNum : String)
  deriving DecidableEq, Repr

/-- One pass of the menu loop of `main` for the given choice: the new state and
the lines printed. -/
def menuStep (st : HotelState) : MenuAction → Except Fault (HotelState × List String)
  | .individual inp =>
    match individualBooking st inp with
    | .ok r => .ok (r.1, r.2.2)
    | .error f => .error f
  | .group numberOfRooms inputs =>
    match groupBooking st numberOfRooms inputs with
    | .ok r => .ok (r.1, r.2.2.2)
    | .error f => .error f
  | .checkOut roomNum => checkOut st roomNum

/-- The menu loop of `main` over a sequence of choices: the state reached and all
lines printed. -/
def runMenu : HotelState → List MenuAction → Except Fault (HotelState × List String)
  | st, [] => .ok (st, [])
  | st, action :: rest =>
    match menuStep st action with
    | .error f => .error f
    | .ok (st', out) =>
      match runMenu st' rest with
      | .error f => .error f
      | .ok (st'', out') => .ok (st'', out ++ out')

/-- A call of `setOccupied` or `setVacant` on a room number. -/
inductive RoomOp where
  | setOccupied (roomNum : String)
  | setVacant (roomNum : String)
  deriving DecidableEq, Repr

/-- The effect of a `RoomOp` on the room manager. -/
def RoomOp.run (rm : RoomManager) : RoomOp → RoomManager
  | .setOccupied roomNum => rm.setOccupied roomNum
  | .setVacant roomNum => rm.setVacant roomNum

/-- The value `dynamicPrice * nights + serviceCost` that `calculateTotal` computes
before any discount is applied. -/
def Booking.subtotal (b : Booking) : Except Fault ℚ :=
  match toInt b.occupancyRate with
  | .error f => .error f
  | .ok occ =>
    let dynamicPrice : ℚ := b.basePrice * (1 + ((Int.tdiv occ 10 : Int) : ℚ) * (5 / 100))
    .ok (dynamicPrice * b.nights + b.serviceCost)

/-! ## Double precision -/

/-- The exponent of the last place of a non-zero binary64 value of the magnitude
of `x`: the leading bit of `x` has exponent `ulpExp x + 52`. -/
def ulpExp (x : ℚ) : ℤ := Int.log 2 |x| - 52

/-- Rounding to the nearest integer, a tie going to the even one. -/
def roundHalfEven (y : ℚ) : ℤ :=
  if y - ⌊y⌋ < 1 / 2 then ⌊y⌋
  else if 1 / 2 < y - ⌊y⌋ then ⌊y⌋ + 1
  else if ⌊y⌋ % 2 = 0 then ⌊y⌋ else ⌊y⌋ + 1

/-- The binary64 value nearest to `x`, ties to even, which is the result a
`double` operation with exact result `x` delivers.  The significand has 53 bits;
the exponent range is not bounded, so results of magnitude `2^1024` and above
(infinities in the program) and subnormal results lie outside the model. -/
def roundDouble (x : ℚ) : ℚ :=
  if x = 0 then 0 else (roundHalfEven (x / (2 : ℚ) ^ ulpExp x) : ℚ) * (2 : ℚ) ^ ulpExp x

/-- The method `calculateTotal()` in double arithmetic, operation by operation in
the order of the source; the `int` operands convert exactly and `0.05` is the
nearest `double` to `5/100`. -/
def Booking.calculateTotalDouble (b : Booking) (clients : Clients) : Except Fault ℚ :=
  match toInt b.occupancyRate with
  | .error f => .error f
  | .ok occ =>
    let dynamicPrice : ℚ :=
      roundDouble (b.basePrice
        * roundDouble (1 + roundDouble (((Int.tdiv occ 10 : Int) : ℚ) * roundDouble (5 / 100))))
    let total : ℚ :=
      roundDouble (roundDouble (roundDouble (dynamicPrice * b.nights) + b.serviceCost)
        * roundDouble (1 - roundDouble (b.discount / 100)))
    match b.client with
    | none => .ok total
    | some k =>
      match clients.find k with
      | none => .error .undefined
      | some cl =>
        .ok (roundDouble (total - roundDouble (total * roundDouble (cl.getDiscount / 100))))

/-- The method `getOccupancyRate()` in double arithmetic:
`(static_cast<double>(occupied) / totalRooms) * 100`, the two `int` counts
converting exactly.  With no rooms the program divides by zero; the model then
yields `0`. -/
def RoomManager.getOccupancyRateDouble (rm : RoomManager) : ℚ :=
  let totalRooms : Nat := rm.rooms.size
  let occupied : Nat := (rm.occupiedRooms.filter (fun p => p.2)).length
  roundDouble (roundDouble ((occupied : ℚ) / (totalRooms : ℚ)) * 100)

/-! ## Specification-side notions -/

/-- The loyalty discount percent that applies to a booking: the current discount
of the client it points to, and `0` for a booking without a client. -/
def clientDiscount (b : Booking) (clients : Clients) : ℚ :=
  match b.client with
  | none => 0
  | some k =>
    match clients.find k with
    | some cl => cl.getDiscount
    | none => 0

/-- A booking whose occupancy snapshot is `2^31`, for room 101 without a client. -/
def hugeOccupancyBooking : Booking :=
  { roomNumber := "101", roomType := "Single Room", nights := 1, basePrice := 1000,
    serviceCost := 0, discount := 0, occupancyRate := 2147483648, client := none }

/-- A booking of room 101 for two nights at 50% occupancy with a 10% manual
discount and one sauna visit, for the client Ann. -/
def sampleBooking : Booking :=
  { roomNumber := "101", roomType := "Single Room", nights := 2, basePrice := 1000,
    serviceCost := 650, discount := 10, occupancyRate := 50, client := some "Ann" }

/-- The arguments of one `Booking` construction. -/
structure BookingArgs where
  roomNum : String
  roomT : String
  n : Int
  price : ℚ
  occupancy : ℚ
  deriving DecidableEq, Repr

/-- The points `floor(price × n / 20)` one construction is meant to award. -/
def BookingArgs.award (a : BookingArgs) : Int := ⌊a.price * a.n / 20⌋

/-- Bookings constructed one after another for the client `k`: the client's
`getBonusPoints()` after each construction. -/
def pointsTrace (k : String) : Clients → List BookingArgs → Except Fault (List Int)
  | _, [] => .ok []
  | clients, a :: rest =>
    match Booking.new a.roomNum a.roomT a.n a.price a.occupancy (some k) clients with
    | .error f => .error f
    | .ok (_, clients') =>
      match clients'.find k with
      | none => .error .undefined
      | some cl =>
        match pointsTrace k clients' rest with
        | .ok t => .ok (cl.getBonusPoints :: t)
        | .error f => .error f

/-- A call of one of the methods `addService`, `applyDiscount`, `calculateTotal`
on a booking. -/
inductive BookingCall where
  | addService (service : ServiceType)
  | applyDiscount (percent : ℚ)
  | calculateTotal
  deriving DecidableEq, Repr

/-- The effect of a method call on the booking and on the client ledger: none of
the three methods writes through the client pointer. -/
def BookingCall.run (call : BookingCall) (b : Booking) (clients : Clients) :
    Booking × Clients :=
  match call with
  | .addService service => ((b.addService service).1, clients)
  | .applyDiscount percent => (b.applyDiscount percent, clients)
  | .calculateTotal => (b, clients)

/-- A ledger in which Ann holds 2147483600 points, which a stay of 10737418
nights in room 503 (4000 a night) awards to a new client. -/
def nearMaxLedger : Clients := [("Ann", ⟨"Ann", 2147483600⟩)]

/-- Two stays of ten million nights in room 503 (4000 a night). -/
def longStays : List BookingArgs :=
  [⟨"503", "Suite", 10000000, 4000, 0⟩, ⟨"503", "Suite", 10000000, 4000, 0⟩]

/-- Two stays in room 101 (1000 a night): 20 nights, then 80 nights. -/
def annStays : List BookingArgs :=
  [⟨"101", "Single Room", 20, 1000, 0⟩, ⟨"101", "Single Room", 80, 1000, 0⟩]

/-- The catalogue price of a service code as the specification lists it:
Breakfast 300, Lunch 500, Dinner 400, FullMeal 1020, Sauna 650, Pool 700,
BathAccessories 340, Laundry 1200; a code outside `1..8` has no price. -/
def cataloguePrice (code : Int) : ℚ :=
  if code = 1 then 300
  else if code = 2 then 500
  else if code = 3 then 400
  else if code = 4 then 1020
  else if code = 5 then 650
  else if code = 6 then 700
  else if code = 7 then 340
  else if code = 8 then 1200
  else 0

/-- The codes of a service line that are processed and priced: those before the
first `0` that lie in `1..8`. -/
def pricedCodes (codes : List Int) : List Int :=
  (codes.takeWhile (fun c => c ≠ 0)).filter (fun c => 1 ≤ c ∧ c ≤ 8)

/-- A group run whose two slots both ask for room 101, one night each, without a
client name and with the service choice `0`. -/
def sameRoomTwice : List SlotInput :=
  [⟨"101", 1, "", [0]⟩, ⟨"101", 1, "", [0]⟩]

/-- A two-room inventory. -/
def twoRooms : UMap (String × ℚ) :=
  [("101", ("Single Room", 1000)), ("102", ("Double Room", 1500))]

/-- The points after each of a sequence of awards, starting from `acc`. -/
def runningSums : Int → List Int → List Int
  | _, [] => []
  | acc, x :: xs => (acc + x) :: runningSums (acc + x) xs

/-- The room spend `price × n` of one construction. -/
def BookingArgs.spend (a : BookingArgs) : ℚ := a.price * a.n

/-- The invariant of the occupancy map: the inventory is the built-in one, every
room number whose flag is set belongs to it, and no room number has two
entries. -/
def OccupiedInInventory (rm : RoomManager) : Prop :=
  rm.rooms = roomDetails
    ∧ (∀ e ∈ rm.occupiedRooms, e.2 = true → e.1 ∈ roomDetails.keys)
    ∧ rm.occupiedRooms.keys.Nodup

/-- An individual booking of room 101 followed by a check-out of the room number
999, which the inventory does not have. -/
def checkOutUnknown : List MenuAction :=
  [.individual ⟨"101", 1, "", [0]⟩, .checkOut "999"]

/-- The first booking of a new client Ann: room 101 (1000 a night), 100 nights. -/
def annFirstBooking : BookingArgs := ⟨"101", "Single Room", 100, 1000, 0⟩

/-- A booking of room 102 for one night without a client name, with the service
choice `0`. -/
def book102Initial : SlotInput := ⟨"102", 1, "", [0]⟩

/-- A booking of room 102 (1500 a night) for one night at an occupancy snapshot
of 20, without services, discount or client. -/
def room102At20 : Booking :=
  { roomNumber := "102", roomType := "Single Room", nights := 1, basePrice := 1500,
    serviceCost := 0, discount := 0, occupancyRate := 20, client := none }

/-- An inventory of twenty rooms. -/
def twentyRooms : UMap (String × ℚ) :=
  [ ("101", ("Single Room", 1000)), ("102", ("Single Room", 1000)),
    ("103", ("Single Room", 1000)), ("104", ("Single Room", 1000)),
    ("105", ("Single Room", 1000)), ("106", ("Single Room", 1000)),
    ("107", ("Single Room", 1000)), ("108", ("Single Room", 1000)),
    ("109", ("Single Room", 1000)), ("110", ("Single Room", 1000)),
    ("111", ("Single Room", 1000)), ("112", ("Single Room", 1000)),
    ("113", ("Single Room", 1000)), ("114", ("Single Room", 1000)),
    ("115", ("Single Room", 1000)), ("116", ("Single Room", 1000)),
    ("117", ("Single Room", 1000)), ("118", ("Single Room", 1000)),
    ("119", ("Single Room", 1000)), ("120", ("Single Room", 1000)) ]

/-- Eleven rooms of the twenty-room inventory. -/
def elevenOfTwenty : List String :=
  ["101", "102", "103", "104", "105", "106", "107", "108", "109", "110", "111"]

/-- Five rooms of the built-in inventory. -/
def fiveOfThirteen : List String := ["101", "102", "201", "202", "301"]

/-- The value `(basePrice × (1 + band × 0.05) × nights + serviceCost)
× (1 − discount/100)` evaluated in double arithmetic, operation by operation in
the order of the source. -/
def roundedManualTotal (basePrice : ℚ) (band nights : ℤ) (serviceCost discount : ℚ) : ℚ :=
  roundDouble
    (roundDouble
        (roundDouble
            (roundDouble
                (basePrice * roundDouble (1 + roundDouble ((band : ℚ) * roundDouble (5 / 100))))
              * nights)
          + serviceCost)
      * roundDouble (1 - roundDouble (discount / 100)))

/-- The loyalty step `total − total × (percent/100)` evaluated in double
arithmetic, operation by operation. -/
def roundedLoyaltyStep (total percent : ℚ) : ℚ :=
  roundDouble (total - roundDouble (total * roundDouble (percent / 100)))

/-- Three rooms of the built-in inventory. -/
def threeOfThirteen : List String := ["101", "201", "202"]

/-- A booking of room 102 (1500 a night) for one night, without services, discount
or client, at the snapshot 23.076923076923077 that `getOccupancyRate` returns when
3 of the 13 built-in rooms are occupied. -/
def room102AtThreeOfThirteen : Booking :=
  { roomNumber := "102", roomType := "Single Room", nights := 1, basePrice := 1500,
    serviceCost := 0, discount := 0, occupancyRate := 6495576385630523 / 281474976710656,
    client := none }

/-! ## Machine arithmetic: lemmas -/

theorem truncToInt_of_nonneg {x : ℚ} (h : 0 ≤ x) : truncToInt x = ⌊x⌋ := by
  simp [truncToInt, h]

theorem toInt_of_nonneg_of_le {x : ℚ} (h0 : 0 ≤ x) (h1 : ⌊x⌋ ≤ INT_MAX) :
    toInt x = .ok ⌊x⌋ := by
  have hfl : (0 : Int) ≤ ⌊x⌋ := Int.floor_nonneg.mpr h0
  have hmin : INT_MIN ≤ ⌊x⌋ := by
    have : INT_MIN ≤ 0 := by decide
    omega
  simp [toInt, truncToInt_of_nonneg h0, hmin, h1]

theorem floor_le_INT_MAX_of_lt {x : ℚ} (h1 : x < 2147483648) : ⌊x⌋ ≤ INT_MAX := by
  have h : ⌊x⌋ < (2147483648 : Int) := by
    rw [Int.floor_lt]
    exact_mod_cast h1
  have : INT_MAX = 2147483647 := rfl
  omega

theorem toInt_of_ge {x : ℚ} (h : 2147483648 ≤ x) : toInt x = .error .undefined := by
  have h0 : (0 : ℚ) ≤ x := le_trans (by norm_num) h
  have hfl : (2147483648 : Int) ≤ ⌊x⌋ := by
    rw [Int.le_floor]
    exact_mod_cast h
  have hmax : ¬ (⌊x⌋ ≤ INT_MAX) := by
    have : INT_MAX = 2147483647 := rfl
    omega
  simp [toInt, truncToInt_of_nonneg h0, hmax]

theorem tdiv_floor_ten {x : ℚ} (h0 : 0 ≤ x) : Int.tdiv ⌊x⌋ 10 = ⌊x / 10⌋ := by
  have hfl : (0 : Int) ≤ ⌊x⌋ := Int.floor_nonneg.mpr h0
  rw [Int.tdiv_eq_ediv hfl (by decide)]
  symm
  rw [Int.floor_eq_iff]
  have hle : ((⌊x⌋ : Int) : ℚ) ≤ x := Int.floor_le x
  have hlt : x < ((⌊x⌋ : Int) : ℚ) + 1 := Int.lt_floor_add_one x
  have h1 : 10 * (⌊x⌋ / 10) ≤ ⌊x⌋ := by omega
  have h2 : ⌊x⌋ + 1 ≤ 10 * (⌊x⌋ / 10) + 10 := by omega
  have h1q : (10 : ℚ) * ((⌊x⌋ / 10 : Int) : ℚ) ≤ ((⌊x⌋ : Int) : ℚ) := by exact_mod_cast h1
  have h2q : ((⌊x⌋ : Int) : ℚ) + 1 ≤ 10 * ((⌊x⌋ / 10 : Int) : ℚ) + 10 := by exact_mod_cast h2
  constructor
  · rw [le_div_iff₀ (by norm_num)]
    linarith
  · rw [div_lt_iff₀ (by norm_num)]
    linarith

theorem wrapInt32_of_range {z : Int} (h0 : INT_MIN ≤ z) (h1 : z ≤ INT_MAX) :
    wrapInt32 z = z := by
  have hmin : INT_MIN = -2147483648 := rfl
  have hmax : INT_MAX = 2147483647 := rfl
  unfold wrapInt32
  omega


/-! ## Booking::calculateTotal -/

/-- The exact reading of the total: for every booking whose occupancy snapshot
lies in `[0, 2^31)` and whose client pointer, when present, refers to a client of
the ledger, `calculateTotal` computed without rounding returns
`(basePrice × (1 + ⌊occupancy/10⌋ × 0.05) × nights + serviceCost)
  × (1 − discount/100) × (1 − clientDiscount/100)`;
with no client and no services this is
`basePrice × nights × (1 + ⌊occupancy/10⌋ × 0.05) × (1 − discount/100)`. -/
theorem calculateTotal_formula (b : Booking) (clients : Clients)
    (hocc : 0 ≤ b.occupancyRate) (hrange : b.occupancyRate < 2147483648)
    (hclient : ∀ k, b.client = some k → ∃ cl, clients.find k = some cl) :
    b.calculateTotal clients =
        .ok ((b.basePrice * (1 + (⌊b.occupancyRate / 10⌋ : ℚ) * (5 / 100)) * b.nights
                + b.serviceCost)
              * (1 - b.discount / 100) * (1 - clientDiscount b clients / 100))
      ∧ (b.client = none → b.serviceCost = 0 →
          b.calculateTotal clients =
            .ok (b.basePrice * b.nights * (1 + (⌊b.occupancyRate / 10⌋ : ℚ) * (5 / 100))
                  * (1 - b.discount / 100))) := by
  have hto : toInt b.occupancyRate = .ok ⌊b.occupancyRate⌋ :=
    toInt_of_nonneg_of_le hocc (floor_le_INT_MAX_of_lt hrange)
  have hdiv : Int.tdiv ⌊b.occupancyRate⌋ 10 = ⌊b.occupancyRate / 10⌋ := tdiv_floor_ten hocc
  constructor
  · cases hc : b.client with
    | none =>
      simp only [Booking.calculateTotal, hto, hdiv, hc, clientDiscount]
      congr 1
      ring
    | some k =>
      obtain ⟨cl, hcl⟩ := hclient k hc
      simp only [Booking.calculateTotal, hto, hdiv, hc, hcl, clientDiscount]
      congr 1
      ring
  · intro hc hs
    simp only [Booking.calculateTotal, hto, hdiv, hc, hs]
    congr 1
    ring

/-- The exact total of room 101, two nights at 50% occupancy, one sauna visit, a
10% manual discount, and the client Ann holding 12000 points (10% loyalty
discount). -/
theorem calculateTotal_formula_witness :
    sampleBooking.calculateTotal [("Ann", ⟨"Ann", 12000⟩)] =
        .ok ((sampleBooking.basePrice
                * (1 + (⌊sampleBooking.occupancyRate / 10⌋ : ℚ) * (5 / 100))
                * sampleBooking.nights + sampleBooking.serviceCost)
              * (1 - sampleBooking.discount / 100)
              * (1 - clientDiscount sampleBooking [("Ann", ⟨"Ann", 12000⟩)] / 100)) :=
  (calculateTotal_formula sampleBooking [("Ann", ⟨"Ann", 12000⟩)]
    (by norm_num [sampleBooking]) (by norm_num [sampleBooking])
    (by
      intro k hk
      refine ⟨⟨"Ann", 12000⟩, ?_⟩
      have hk' : k = "Ann" := by
        simp only [sampleBooking, Option.some.injEq] at hk
        exact hk.symm
      subst hk'
      simp [UMap.find, List.lookup])).1

/-- A booking with the non-negative occupancy snapshot `2^31` and no client has
no defined total, so `calculateTotal` does not return the value of the formula. -/
theorem calculateTotal_undefined_at_huge_occupancy :
    0 ≤ hugeOccupancyBooking.occupancyRate
      ∧ hugeOccupancyBooking.calculateTotal [] = .error .undefined
      ∧ hugeOccupancyBooking.calculateTotal [] ≠
          .ok ((hugeOccupancyBooking.basePrice
                  * (1 + (⌊hugeOccupancyBooking.occupancyRate / 10⌋ : ℚ) * (5 / 100))
                  * hugeOccupancyBooking.nights + hugeOccupancyBooking.serviceCost)
                * (1 - hugeOccupancyBooking.discount / 100)
                * (1 - clientDiscount hugeOccupancyBooking [] / 100)) := by
  have hto : toInt hugeOccupancyBooking.occupancyRate = .error .undefined :=
    toInt_of_ge (by norm_num [hugeOccupancyBooking])
  have hcalc : hugeOccupancyBooking.calculateTotal [] = .error .undefined := by
    simp only [Booking.calculateTotal, hto]
  refine ⟨by norm_num [hugeOccupancyBooking], hcalc, ?_⟩
  rw [hcalc]
  intro h
  cases h

/-! ## Booking::addService -/

theorem servicePrice_of_unknown (code : Int) (h : code < 1 ∨ 8 < code) :
    Booking.servicePrice ⟨code⟩ = none := by
  have h1 : (⟨code⟩ : ServiceType) ≠ ServiceType.Breakfast := by
    simp only [ServiceType.Breakfast, ne_eq, ServiceType.mk.injEq]; omega
  have h2 : (⟨code⟩ : ServiceType) ≠ ServiceType.Lunch := by
    simp only [ServiceType.Lunch, ne_eq, ServiceType.mk.injEq]; omega
  have h3 : (⟨code⟩ : ServiceType) ≠ ServiceType.Dinner := by
    simp only [ServiceType.Dinner, ne_eq, ServiceType.mk.injEq]; omega
  have h4 : (⟨code⟩ : ServiceType) ≠ ServiceType.FullMeal := by
    simp only [ServiceType.FullMeal, ne_eq, ServiceType.mk.injEq]; omega
  have h5 : (⟨code⟩ : ServiceType) ≠ ServiceType.Sauna := by
    simp only [ServiceType.Sauna, ne_eq, ServiceType.mk.injEq]; omega
  have h6 : (⟨code⟩ : ServiceType) ≠ ServiceType.Pool := by
    simp only [ServiceType.Pool, ne_eq, ServiceType.mk.injEq]; omega
  have h7 : (⟨code⟩ : ServiceType) ≠ ServiceType.BathAccessories := by
    simp only [ServiceType.BathAccessories, ne_eq, ServiceType.mk.injEq]; omega
  have h8 : (⟨code⟩ : ServiceType) ≠ ServiceType.Laundry := by
    simp only [ServiceType.Laundry, ne_eq, ServiceType.mk.injEq]; omega
  simp only [Booking.servicePrice, h1, h2, h3, h4, h5, h6, h7, h8, if_false]

theorem servicePrice_Breakfast : Booking.servicePrice ServiceType.Breakfast = some 300 := by
  simp [Booking.servicePrice]

theorem servicePrice_Lunch : Booking.servicePrice ServiceType.Lunch = some 500 := by
  simp [Booking.servicePrice, ServiceType.Breakfast, ServiceType.Lunch]

theorem servicePrice_Dinner : Booking.servicePrice ServiceType.Dinner = some 400 := by
  simp [Booking.servicePrice, ServiceType.Breakfast, ServiceType.Lunch, ServiceType.Dinner]

theorem servicePrice_FullMeal : Booking.servicePrice ServiceType.FullMeal = some 1020 := by
  simp only [Booking.servicePrice, ServiceType.Breakfast, ServiceType.Lunch,
    ServiceType.Dinner, ServiceType.FullMeal]
  norm_num

theorem servicePrice_Sauna : Booking.servicePrice ServiceType.Sauna = some 650 := by
  simp [Booking.servicePrice, ServiceType.Breakfast, ServiceType.Lunch, ServiceType.Dinner,
    ServiceType.FullMeal, ServiceType.Sauna]

theorem servicePrice_Pool : Booking.servicePrice ServiceType.Pool = some 700 := by
  simp [Booking.servicePrice, ServiceType.Breakfast, ServiceType.Lunch, ServiceType.Dinner,
    ServiceType.FullMeal, ServiceType.Sauna, ServiceType.Pool]

theorem servicePrice_BathAccessories :
    Booking.servicePrice ServiceType.BathAccessories = some 340 := by
  simp [Booking.servicePrice, ServiceType.Breakfast, ServiceType.Lunch, ServiceType.Dinner,
    ServiceType.FullMeal, ServiceType.Sauna, ServiceType.Pool, ServiceType.BathAccessories]

theorem servicePrice_Laundry : Booking.servicePrice ServiceType.Laundry = some 1200 := by
  simp [Booking.servicePrice, ServiceType.Breakfast, ServiceType.Lunch, ServiceType.Dinner,
    ServiceType.FullMeal, ServiceType.Sauna, ServiceType.Pool, ServiceType.BathAccessories,
    ServiceType.Laundry]

theorem addService_of_price (b : Booking) {service : ServiceType} {p : ℚ}
    (h : Booking.servicePrice service = some p) :
    b.addService service = ({ b with serviceCost := b.serviceCost + p }, []) := by
  simp only [Booking.addService, h]

/-- C2: for every booking, `addService` raises `serviceCost` by exactly the
catalogue price of the kind: Breakfast 300, Lunch 500, Dinner 400, FullMeal 1020,
Sauna 650, Pool 700, BathAccessories 340, Laundry 1200; FullMeal never adds 1200. -/
theorem addService_adds_catalogue_price (b : Booking) :
    (b.addService ServiceType.Breakfast).1.serviceCost = b.serviceCost + 300
      ∧ (b.addService ServiceType.Lunch).1.serviceCost = b.serviceCost + 500
      ∧ (b.addService ServiceType.Dinner).1.serviceCost = b.serviceCost + 400
      ∧ (b.addService ServiceType.FullMeal).1.serviceCost = b.serviceCost + 1020
      ∧ (b.addService ServiceType.Sauna).1.serviceCost = b.serviceCost + 650
      ∧ (b.addService ServiceType.Pool).1.serviceCost = b.serviceCost + 700
      ∧ (b.addService ServiceType.BathAccessories).1.serviceCost = b.serviceCost + 340
      ∧ (b.addService ServiceType.Laundry).1.serviceCost = b.serviceCost + 1200
      ∧ (b.addService ServiceType.FullMeal).1.serviceCost ≠ b.serviceCost + 1200 := by
  rw [addService_of_price b servicePrice_Breakfast, addService_of_price b servicePrice_Lunch,
    addService_of_price b servicePrice_Dinner, addService_of_price b servicePrice_FullMeal,
    addService_of_price b servicePrice_Sauna, addService_of_price b servicePrice_Pool,
    addService_of_price b servicePrice_BathAccessories,
    addService_of_price b servicePrice_Laundry]
  refine ⟨rfl, rfl, rfl, rfl, rfl, rfl, rfl, rfl, ?_⟩
  intro h
  have h' : b.serviceCost + 1020 = b.serviceCost + 1200 := h
  linarith

/-- C8: for every booking and every integer code outside `1..8`, `addService`
returns the booking unchanged in every field and prints the unknown-service
line. -/
theorem addService_unknown_code (b : Booking) (code : Int) (h : code < 1 ∨ 8 < code) :
    b.addService ⟨code⟩ = (b, ["Неизвестная услуга!"]) := by
  simp only [Booking.addService, servicePrice_of_unknown code h]

/-- Witness for C8: the service code 99 on the sample booking. -/
theorem addService_unknown_code_witness :
    sampleBooking.addService ⟨99⟩ = (sampleBooking, ["Неизвестная услуга!"]) :=
  addService_unknown_code sampleBooking 99 (by decide)

/-! ## Client::getDiscount -/

theorem tdiv_5000_eq_floor {p : Int} (h : 0 ≤ p) :
    Int.tdiv p 5000 = ⌊(p : ℚ) / 5000⌋ := by
  rw [Int.tdiv_eq_ediv h (by decide)]
  have := Rat.floor_intCast_div_natCast p 5000
  simpa using this.symm

/-- C3: for every client with a non-negative point count `p`, `getDiscount`
equals `min 75 (⌊p / 5000⌋ × 5)` and so never exceeds 75. -/
theorem getDiscount_eq_min (c : Client) (h : 0 ≤ c.bonusPoints) :
    c.getDiscount = min 75 ((⌊(c.bonusPoints : ℚ) / 5000⌋ : ℚ) * 5)
      ∧ c.getDiscount ≤ 75 := by
  have hfl : Int.tdiv c.bonusPoints 5000 = ⌊(c.bonusPoints : ℚ) / 5000⌋ :=
    tdiv_5000_eq_floor h
  have hval : c.getDiscount = min 75 ((⌊(c.bonusPoints : ℚ) / 5000⌋ : ℚ) * 5) := by
    simp only [Client.getDiscount, hfl]
    by_cases hgt : ⌊(c.bonusPoints : ℚ) / 5000⌋ * 5 > 75
    · have hq : (75 : ℚ) ≤ (⌊(c.bonusPoints : ℚ) / 5000⌋ : ℚ) * 5 := by
        have : (75 : Int) ≤ ⌊(c.bonusPoints : ℚ) / 5000⌋ * 5 := le_of_lt hgt
        exact_mod_cast this
      rw [if_pos hgt, min_eq_left hq]
    · have hq : (⌊(c.bonusPoints : ℚ) / 5000⌋ : ℚ) * 5 ≤ 75 := by
        have : ⌊(c.bonusPoints : ℚ) / 5000⌋ * 5 ≤ (75 : Int) := not_lt.mp hgt
        exact_mod_cast this
      rw [if_neg hgt, min_eq_right hq]
      push_cast
      ring
  exact ⟨hval, by rw [hval]; exact min_le_left _ _⟩

/-- Witness for C3: a client with a hundred million points has a 75% discount. -/
theorem getDiscount_eq_min_witness :
    (Client.mk "Ann" 100000000).getDiscount
        = min 75 ((⌊(((Client.mk "Ann" 100000000).bonusPoints : Int) : ℚ) / 5000⌋ : ℚ) * 5)
      ∧ (Client.mk "Ann" 100000000).getDiscount ≤ 75 :=
  getDiscount_eq_min (Client.mk "Ann" 100000000) (by decide)

/-! ## unordered_map: lemmas -/

theorem UMap.find_set_self {β : Type} (m : UMap β) (k : String) (v : β) :
    (m.set k v).find k = some v := by
  simp [UMap.set, UMap.find, List.lookup]

theorem UMap.lookup_filter_ne {β : Type} (m : UMap β) (k k' : String) (h : k' ≠ k) :
    List.lookup k' (m.filter (fun e => e.1 ≠ k)) = List.lookup k' m := by
  induction m with
  | nil => rfl
  | cons e m ih =>
    obtain ⟨a, v⟩ := e
    by_cases ha : a = k
    · subst ha
      have hne : (k' == a) = false := by simpa using h
      simp only [List.filter, ne_eq, not_true_eq_false, decide_False, List.lookup, hne]
      exact ih
    · by_cases hk : k' = a
      · subst hk
        simp [List.filter, List.lookup, ha]
      · have hne : (k' == a) = false := by simpa using hk
        simp only [List.filter, ne_eq, ha, not_false_eq_true, decide_True, List.lookup, hne]
        exact ih

theorem UMap.find_set_ne {β : Type} (m : UMap β) (k k' : String) (v : β) (h : k' ≠ k) :
    (m.set k v).find k' = m.find k' := by
  have hne : (k' == k) = false := by simpa using h
  simp only [UMap.set, UMap.find, List.lookup, hne]
  exact UMap.lookup_filter_ne m k k' h

/-! ## Booking construction and loyalty points -/

theorem award_floor_nonneg {price : ℚ} {n : Int} (hprice : 0 ≤ price) (hn : 0 < n) :
    0 ≤ ⌊price * n / 20⌋ := by
  apply Int.floor_nonneg.mpr
  have : (0 : ℚ) < n := by exact_mod_cast hn
  positivity

theorem addBonusPoints_of_fit (cl : Client) {amount : ℚ} (h0 : 0 ≤ amount)
    (hmin : INT_MIN ≤ cl.bonusPoints) (hcast : ⌊amount / 20⌋ ≤ INT_MAX)
    (hsum : cl.bonusPoints + ⌊amount / 20⌋ ≤ INT_MAX) :
    cl.addBonusPoints amount
      = .ok { cl with bonusPoints := cl.bonusPoints + ⌊amount / 20⌋ } := by
  have h20 : (0 : ℚ) ≤ amount / 20 := by positivity
  have hfl : (0 : Int) ≤ ⌊amount / 20⌋ := Int.floor_nonneg.mpr h20
  have hw : wrapInt32 (cl.bonusPoints + ⌊amount / 20⌋) = cl.bonusPoints + ⌊amount / 20⌋ :=
    wrapInt32_of_range (by omega) hsum
  simp only [Client.addBonusPoints, toInt_of_nonneg_of_le h20 hcast, hw]

theorem Booking_new_of_fit (roomNum roomT : String) (n : Int) (price occupancy : ℚ)
    (k : String) (clients : Clients) (cl : Client)
    (hfind : clients.find k = some cl) (hprice : 0 ≤ price) (hn : 0 < n)
    (hmin : INT_MIN ≤ cl.bonusPoints) (hcast : ⌊price * n / 20⌋ ≤ INT_MAX)
    (hsum : cl.bonusPoints + ⌊price * n / 20⌋ ≤ INT_MAX) :
    Booking.new roomNum roomT n price occupancy (some k) clients
      = .ok ({ roomNumber := roomNum, roomType := roomT, nights := n, basePrice := price,
               serviceCost := 0, discount := 0, occupancyRate := occupancy,
               client := some k },
             clients.set k { cl with bonusPoints := cl.bonusPoints + ⌊price * n / 20⌋ }) := by
  have hamount : (0 : ℚ) ≤ price * n := by
    have : (0 : ℚ) < n := by exact_mod_cast hn
    positivity
  simp only [Booking.new, hfind, addBonusPoints_of_fit cl hamount hmin hcast hsum]

/-- C4 (as amended): constructing a booking with a client of the ledger, a
non-negative base rate and a positive night count succeeds and raises that
client's points by exactly `⌊basePrice × nights / 20⌋`, leaving every other
client as it was, provided the award and the new point total do not exceed
`INT_MAX` (the points being an `int`); constructing a booking without a client
succeeds and leaves the ledger unchanged. -/
theorem Booking_new_awards_points (roomNum roomT : String) (n : Int) (price occupancy : ℚ)
    (k : String) (clients : Clients) (cl : Client)
    (hfind : clients.find k = some cl) (hprice : 0 ≤ price) (hn : 0 < n)
    (hmin : INT_MIN ≤ cl.bonusPoints) (hcast : ⌊price * n / 20⌋ ≤ INT_MAX)
    (hsum : cl.bonusPoints + ⌊price * n / 20⌋ ≤ INT_MAX) :
    (∃ b clients',
        Booking.new roomNum roomT n price occupancy (some k) clients = .ok (b, clients')
          ∧ clients'.find k
              = some { cl with bonusPoints := cl.bonusPoints + ⌊price * n / 20⌋ }
          ∧ ∀ k', k' ≠ k → clients'.find k' = clients.find k')
      ∧ ∃ b, Booking.new roomNum roomT n price occupancy none clients = .ok (b, clients) := by
  constructor
  · refine ⟨_, _, Booking_new_of_fit roomNum roomT n price occupancy k clients cl hfind
      hprice hn hmin hcast hsum, ?_, ?_⟩
    · exact UMap.find_set_self _ _ _
    · intro k' hk'
      exact UMap.find_set_ne _ _ _ _ hk'
  · exact ⟨_, rfl⟩

theorem toInt_intCast (z : Int) (h0 : INT_MIN ≤ z) (h1 : z ≤ INT_MAX) :
    toInt (z : ℚ) = .ok z := by
  have ht : truncToInt (z : ℚ) = z := by
    unfold truncToInt
    split <;> simp
  simp [toInt, ht, h0, h1]

/-- Witness for C4: a new client Ann books room 101 (1000 a night) for 20 nights
and holds 1000 points afterwards. -/
theorem Booking_new_awards_points_witness :
    (∃ b clients',
        Booking.new "101" "Single Room" 20 1000 0 (some "Ann") [("Ann", Client.new "Ann")]
            = .ok (b, clients')
          ∧ clients'.find "Ann"
              = some { Client.new "Ann" with
                  bonusPoints := (Client.new "Ann").bonusPoints
                    + ⌊(1000 : ℚ) * ((20 : Int) : ℚ) / 20⌋ }
          ∧ ∀ k', k' ≠ "Ann" →
              clients'.find k' = UMap.find [("Ann", Client.new "Ann")] k')
      ∧ ∃ b, Booking.new "101" "Single Room" 20 1000 0 none [("Ann", Client.new "Ann")]
          = .ok (b, [("Ann", Client.new "Ann")]) := by
  have hfl : ⌊(1000 : ℚ) * ((20 : Int) : ℚ) / 20⌋ = 1000 := by
    rw [Int.floor_eq_iff]
    norm_num
  exact Booking_new_awards_points "101" "Single Room" 20 1000 0 "Ann"
    [("Ann", Client.new "Ann")] (Client.new "Ann")
    (by simp [UMap.find, List.lookup]) (by norm_num) (by decide) (by decide)
    (by rw [hfl]; decide) (by rw [hfl]; decide)

/-- C4 (counterexample): Ann holds 2147483600 points and books room 101
(1000 a night) for one night; the construction leaves her with -2147483646
points, not with 2147483600 + ⌊1000 × 1 / 20⌋. -/
theorem Booking_new_award_wraps :
    Booking.new "101" "Single Room" 1 1000 0 (some "Ann") nearMaxLedger
        = .ok ({ roomNumber := "101", roomType := "Single Room", nights := 1,
                 basePrice := 1000, serviceCost := 0, discount := 0, occupancyRate := 0,
                 client := some "Ann" },
               [("Ann", ⟨"Ann", -2147483646⟩)])
      ∧ (-2147483646 : Int) ≠ 2147483600 + ⌊(1000 : ℚ) * ((1 : Int) : ℚ) / 20⌋ := by
  have hq : (1000 : ℚ) * ((1 : Int) : ℚ) / 20 = ((50 : Int) : ℚ) := by norm_num
  have hto : toInt ((1000 : ℚ) * ((1 : Int) : ℚ) / 20) = .ok 50 := by
    rw [hq]
    exact toInt_intCast 50 (by decide) (by decide)
  have hw : wrapInt32 (2147483600 + 50) = -2147483646 := by decide
  have hfind : UMap.find nearMaxLedger "Ann" = some ⟨"Ann", 2147483600⟩ := by
    simp [nearMaxLedger, UMap.find, List.lookup]
  have hadd : (Client.mk "Ann" 2147483600).addBonusPoints ((1000 : ℚ) * ((1 : Int) : ℚ))
      = .ok ⟨"Ann", -2147483646⟩ := by
    simp only [Client.addBonusPoints, hto, hw]
  have hset : UMap.set nearMaxLedger "Ann" (Client.mk "Ann" (-2147483646))
      = [("Ann", ⟨"Ann", -2147483646⟩)] := by
    simp [UMap.set, nearMaxLedger]
  constructor
  · simp only [Booking.new, hfind, hadd, hset]
  · rw [hq, Int.floor_intCast]
    decide

/-! ## Loyalty points over a sequence of bookings -/

theorem pointsTrace_chain (k : String) (args : List BookingArgs) :
    ∀ (clients : Clients) (cl : Client), clients.find k = some cl →
      (∀ a ∈ args, 0 ≤ a.price ∧ 0 < a.n) →
      INT_MIN ≤ cl.bonusPoints →
      (∀ a ∈ args, a.award ≤ INT_MAX) →
      cl.bonusPoints + (args.map BookingArgs.award).sum ≤ INT_MAX →
      ∃ t, pointsTrace k clients args = .ok t ∧ t.length = args.length
        ∧ List.Chain (fun p q => p ≤ q) cl.bonusPoints t := by
  induction args with
  | nil =>
    intro clients cl _ _ _ _ _
    exact ⟨[], rfl, rfl, List.Chain.nil⟩
  | cons a rest ih =>
    intro clients cl hfind hargs hmin hcast hsum
    obtain ⟨hprice, hn⟩ := hargs a (List.mem_cons_self a rest)
    have haw : 0 ≤ a.award := award_floor_nonneg hprice hn
    have hrest_nonneg : 0 ≤ (rest.map BookingArgs.award).sum := by
      apply List.sum_nonneg
      intro x hx
      obtain ⟨a', ha', rfl⟩ := List.mem_map.mp hx
      obtain ⟨hp', hn'⟩ := hargs a' (List.mem_cons_of_mem a ha')
      exact award_floor_nonneg hp' hn'
    have hsum' : cl.bonusPoints + a.award + (rest.map BookingArgs.award).sum ≤ INT_MAX := by
      simp only [List.map_cons, List.sum_cons] at hsum
      omega
    have hnew := Booking_new_of_fit a.roomNum a.roomT a.n a.price a.occupancy k clients cl
      hfind hprice hn hmin (hcast a (List.mem_cons_self a rest))
      (by have : a.award = ⌊a.price * a.n / 20⌋ := rfl
          omega)
    obtain ⟨t, ht, hlen, hchain⟩ :=
      ih (clients.set k { cl with bonusPoints := cl.bonusPoints + ⌊a.price * a.n / 20⌋ })
        { cl with bonusPoints := cl.bonusPoints + ⌊a.price * a.n / 20⌋ }
        (UMap.find_set_self _ _ _)
        (fun a' ha' => hargs a' (List.mem_cons_of_mem a ha'))
        (by have : a.award = ⌊a.price * a.n / 20⌋ := rfl
            show INT_MIN ≤ cl.bonusPoints + ⌊a.price * a.n / 20⌋
            omega)
        (fun a' ha' => hcast a' (List.mem_cons_of_mem a ha'))
        (by have : a.award = ⌊a.price * a.n / 20⌋ := rfl
            show cl.bonusPoints + ⌊a.price * a.n / 20⌋ + _ ≤ INT_MAX
            omega)
    refine ⟨(cl.bonusPoints + ⌊a.price * a.n / 20⌋) :: t, ?_, ?_, ?_⟩
    · simp only [pointsTrace, hnew, UMap.find_set_self, ht, Client.getBonusPoints]
    · simp [hlen]
    · refine List.Chain.cons ?_ hchain
      have : a.award = ⌊a.price * a.n / 20⌋ := rfl
      omega

/-- C10 (as amended): for every client of the ledger and every sequence of
bookings constructed for that client with non-negative base rates and positive
night counts, as long as every award and the accumulated point total stay within
`int` (at most `INT_MAX`), every construction succeeds and the points after it
are at least the points before it; `addService`, `applyDiscount` and
`calculateTotal` leave the ledger, hence the points, unchanged. -/
theorem points_never_decrease (k : String) (clients : Clients) (cl : Client)
    (args : List BookingArgs) (hfind : clients.find k = some cl)
    (hargs : ∀ a ∈ args, 0 ≤ a.price ∧ 0 < a.n)
    (hmin : INT_MIN ≤ cl.bonusPoints)
    (hcast : ∀ a ∈ args, a.award ≤ INT_MAX)
    (hsum : cl.bonusPoints + (args.map BookingArgs.award).sum ≤ INT_MAX) :
    (∃ t, pointsTrace k clients args = .ok t ∧ t.length = args.length
        ∧ List.Chain (fun p q => p ≤ q) cl.bonusPoints t)
      ∧ ∀ (call : BookingCall) (b : Booking), (call.run b clients).2 = clients := by
  refine ⟨pointsTrace_chain k args clients cl hfind hargs hmin hcast hsum, ?_⟩
  intro call b
  cases call <;> rfl

theorem Booking_new_of_cast (roomNum roomT : String) (n : Int) (price occupancy : ℚ)
    (k : String) (clients : Clients) (cl : Client) (d : Int)
    (hfind : clients.find k = some cl) (hto : toInt (price * n / 20) = .ok d) :
    Booking.new roomNum roomT n price occupancy (some k) clients
      = .ok ({ roomNumber := roomNum, roomType := roomT, nights := n, basePrice := price,
               serviceCost := 0, discount := 0, occupancyRate := occupancy,
               client := some k },
             clients.set k { cl with bonusPoints := wrapInt32 (cl.bonusPoints + d) }) := by
  simp only [Booking.new, hfind, Client.addBonusPoints, hto]

/-- Witness for C10: a new client Ann stays 20 nights and then 80 nights in room
101 (1000 a night); her points go from 0 to 1000 to 5000. -/
theorem points_never_decrease_witness :
    (∃ t, pointsTrace "Ann" [("Ann", Client.new "Ann")] annStays = .ok t
        ∧ t.length = annStays.length
        ∧ List.Chain (fun p q => p ≤ q) (Client.new "Ann").bonusPoints t)
      ∧ ∀ (call : BookingCall) (b : Booking),
          (call.run b [("Ann", Client.new "Ann")]).2 = [("Ann", Client.new "Ann")] := by
  have h1 : ⌊(1000 : ℚ) * ((20 : Int) : ℚ) / 20⌋ = 1000 := by
    rw [Int.floor_eq_iff]
    norm_num
  have h2 : ⌊(1000 : ℚ) * ((80 : Int) : ℚ) / 20⌋ = 4000 := by
    rw [Int.floor_eq_iff]
    norm_num
  exact points_never_decrease "Ann" [("Ann", Client.new "Ann")] (Client.new "Ann") annStays
    (by simp [UMap.find, List.lookup])
    (by
      intro a ha
      simp only [annStays, List.mem_cons, List.mem_singleton, List.not_mem_nil, or_false] at ha
      rcases ha with rfl | rfl <;> norm_num)
    (by decide)
    (by
      intro a ha
      simp only [annStays, List.mem_cons, List.mem_singleton, List.not_mem_nil, or_false] at ha
      rcases ha with rfl | rfl
      · show ⌊(1000 : ℚ) * ((20 : Int) : ℚ) / 20⌋ ≤ INT_MAX
        rw [h1]
        decide
      · show ⌊(1000 : ℚ) * ((80 : Int) : ℚ) / 20⌋ ≤ INT_MAX
        rw [h2]
        decide)
    (by
      show (0 : Int) + (⌊(1000 : ℚ) * ((20 : Int) : ℚ) / 20⌋
        + (⌊(1000 : ℚ) * ((80 : Int) : ℚ) / 20⌋ + 0)) ≤ INT_MAX
      rw [h1, h2]
      decide)

/-- C10 (counterexample): a new client Ann stays twice for ten million nights in
room 503 (4000 a night), a non-negative rate and a positive night count; her
points are 2000000000 after the first construction and -294967296 after the
second, so they decrease. -/
theorem points_decrease_on_overflow :
    (∀ a ∈ longStays, 0 ≤ a.price ∧ 0 < a.n)
      ∧ pointsTrace "Ann" [("Ann", Client.new "Ann")] longStays
          = .ok [2000000000, -294967296]
      ∧ ¬ List.Chain (fun p q => p ≤ q) (Client.new "Ann").bonusPoints
          [2000000000, -294967296] := by
  have hq : (4000 : ℚ) * ((10000000 : Int) : ℚ) / 20 = ((2000000000 : Int) : ℚ) := by
    norm_num
  have hto : toInt ((4000 : ℚ) * ((10000000 : Int) : ℚ) / 20) = .ok 2000000000 := by
    rw [hq]
    exact toInt_intCast 2000000000 (by decide) (by decide)
  have hw1 : wrapInt32 ((Client.new "Ann").bonusPoints + 2000000000) = 2000000000 := by
    decide
  have hw2 : wrapInt32 (2000000000 + 2000000000) = -294967296 := by decide
  have hf0 : UMap.find [("Ann", Client.new "Ann")] "Ann" = some (Client.new "Ann") := by
    simp [UMap.find, List.lookup]
  have hn1 := Booking_new_of_cast "503" "Suite" 10000000 4000 0 "Ann"
    [("Ann", Client.new "Ann")] (Client.new "Ann") 2000000000 hf0 hto
  have hn2 := Booking_new_of_cast "503" "Suite" 10000000 4000 0 "Ann"
    (UMap.set [("Ann", Client.new "Ann")] "Ann" ⟨"Ann", 2000000000⟩) ⟨"Ann", 2000000000⟩
    2000000000 (UMap.find_set_self _ _ _) hto
  rw [hw1] at hn1
  simp only [hw2] at hn2
  refine ⟨?_, ?_, ?_⟩
  · intro a ha
    simp only [longStays, List.mem_cons, List.mem_singleton, List.not_mem_nil, or_false] at ha
    rcases ha with rfl | rfl <;> norm_num
  · simp only [pointsTrace, longStays]
    rw [show ({ Client.new "Ann" with bonusPoints := 2000000000 } : Client)
        = ⟨"Ann", 2000000000⟩ from rfl] at hn1
    simp only [hn1, UMap.find_set_self, hn2, Client.getBonusPoints]
  · intro h
    cases h with
    | cons _ h' =>
      cases h' with
      | cons hle _ => exact absurd hle (by decide)

/-! ## RoomManager -/

/-- C5: for every room manager and every room number of its inventory,
`isAvailable` is `false` right after `setOccupied` and `true` right after
`setVacant`, whatever the flags were before. -/
theorem isAvailable_after_set (rm : RoomManager) (roomId : String)
    (h : ∃ room, rm.rooms.find roomId = some room) :
    (rm.setOccupied roomId).isAvailable roomId = .ok false
      ∧ (rm.setVacant roomId).isAvailable roomId = .ok true := by
  obtain ⟨room, hroom⟩ := h
  constructor
  · simp only [RoomManager.isAvailable, RoomManager.setOccupied, hroom, UMap.atKey,
      UMap.find_set_self, Bool.not_true]
  · simp only [RoomManager.isAvailable, RoomManager.setVacant, hroom, UMap.atKey,
      UMap.find_set_self, Bool.not_false]

/-- Witness for C5: room 101 of the built-in inventory. -/
theorem isAvailable_after_set_witness :
    ((RoomManager.new roomDetails).setOccupied "101").isAvailable "101" = .ok false
      ∧ ((RoomManager.new roomDetails).setVacant "101").isAvailable "101" = .ok true :=
  isAvailable_after_set (RoomManager.new roomDetails) "101"
    ⟨("Single Room", 1000), by simp [RoomManager.new, roomDetails, UMap.find, List.lookup]⟩

theorem new_all_vacant_aux (rd : UMap (String × ℚ)) :
    ∀ init : UMap Bool, (∀ e ∈ init, e.2 = false) →
      ∀ e ∈ rd.foldl (fun occ room => occ.set room.1 false) init, e.2 = false := by
  induction rd with
  | nil => intro init h; exact h
  | cons r rd ih =>
    intro init h
    apply ih
    intro e he
    simp only [UMap.set, List.mem_cons, List.mem_filter] at he
    rcases he with rfl | ⟨he, _⟩
    · rfl
    · exact h e he

theorem new_all_vacant (rd : UMap (String × ℚ)) :
    ∀ e ∈ (RoomManager.new rd).occupiedRooms, e.2 = false :=
  new_all_vacant_aux rd [] (by simp)

theorem foldl_setOccupied (ks : List String) :
    ∀ rm : RoomManager,
      (ks.foldl RoomManager.setOccupied rm).rooms = rm.rooms
        ∧ (ks.foldl RoomManager.setOccupied rm).occupiedRooms
            = ks.foldl (fun m k => m.set k true) rm.occupiedRooms := by
  induction ks with
  | nil => intro rm; exact ⟨rfl, rfl⟩
  | cons k ks ih =>
    intro rm
    obtain ⟨h1, h2⟩ := ih (rm.setOccupied k)
    exact ⟨h1, h2⟩

theorem count_set_true (m : UMap Bool) (k : String)
    (hk : ∀ e ∈ m, e.1 = k → e.2 = false) :
    ((m.set k true).filter (fun p => p.2)).length = (m.filter (fun p => p.2)).length + 1 := by
  have hfilter : (m.filter (fun e => e.1 ≠ k)).filter (fun p => p.2) = m.filter (fun p => p.2) := by
    rw [List.filter_filter]
    apply List.filter_congr
    intro e he
    by_cases hek : e.1 = k
    · simp [hek, hk e he hek]
    · simp [hek]
  simp only [UMap.set, List.filter_cons_of_pos, List.length_cons, hfilter]

theorem count_after_checkins (ks : List String) :
    ∀ m : UMap Bool, ks.Nodup → (∀ e ∈ m, e.1 ∈ ks → e.2 = false) →
      ((ks.foldl (fun m k => m.set k true) m).filter (fun p => p.2)).length
        = (m.filter (fun p => p.2)).length + ks.length := by
  induction ks with
  | nil => intro m _ _; rfl
  | cons k ks ih =>
    intro m hnd hm
    obtain ⟨hk, hnd'⟩ := List.nodup_cons.mp hnd
    have hstep := count_set_true m k (fun e he hek => hm e he (by simp [hek]))
    have hm' : ∀ e ∈ m.set k true, e.1 ∈ ks → e.2 = false := by
      intro e he hin
      simp only [UMap.set, List.mem_cons, List.mem_filter] at he
      rcases he with rfl | ⟨he, _⟩
      · exact absurd hin hk
      · exact hm e he (List.mem_cons_of_mem k hin)
    simp only [List.foldl_cons, List.length_cons]
    rw [ih (m.set k true) hnd' hm', hstep]
    omega

/-- The exact reading of the occupancy rate: for every inventory of `n > 0` rooms
(distinct room numbers), all vacant as constructed, after `setOccupied` on `k`
distinct rooms of the inventory `getOccupancyRate` computed without rounding
returns `k / n × 100`. -/
theorem occupancyRate_after_checkins (rd : UMap (String × ℚ)) (ks : List String)
    (_hkeys : rd.keys.Nodup) (_hn : 0 < rd.size) (hks : ks.Nodup)
    (_hin : ∀ k ∈ ks, k ∈ rd.keys) :
    (ks.foldl RoomManager.setOccupied (RoomManager.new rd)).getOccupancyRate
      = (ks.length : ℚ) / (rd.size : ℚ) * 100 := by
  obtain ⟨hrooms, hocc⟩ := foldl_setOccupied ks (RoomManager.new rd)
  have hcount := count_after_checkins ks (RoomManager.new rd).occupiedRooms hks
    (fun e he _ => new_all_vacant rd e he)
  have hzero : ((RoomManager.new rd).occupiedRooms.filter (fun p => p.2)).length = 0 := by
    rw [List.length_eq_zero, List.filter_eq_nil_iff]
    intro e he
    simp [new_all_vacant rd e he]
  simp only [RoomManager.getOccupancyRate, hrooms, hocc, hcount, hzero, zero_add]
  rfl

/-- The exact occupancy rate when one of the two rooms of a two-room inventory is
occupied. -/
theorem occupancyRate_after_checkins_witness :
    (["101"].foldl RoomManager.setOccupied (RoomManager.new twoRooms)).getOccupancyRate
      = ((["101"] : List String).length : ℚ) / (twoRooms.size : ℚ) * 100 :=
  occupancyRate_after_checkins twoRooms ["101"]
    (by simp [twoRooms, UMap.keys]) (by simp [twoRooms, UMap.size]) (by simp)
    (by simp [twoRooms, UMap.keys])

/-! ## The service selection loop -/

theorem addService_cost (b : Booking) (c : Int) :
    (b.addService ⟨c⟩).1.serviceCost
      = b.serviceCost + (if 1 ≤ c ∧ c ≤ 8 then cataloguePrice c else 0) := by
  by_cases h : 1 ≤ c ∧ c ≤ 8
  · rw [if_pos h]
    obtain ⟨h1, h8⟩ := h
    interval_cases c
    · rw [show (⟨1⟩ : ServiceType) = ServiceType.Breakfast from rfl,
        addService_of_price b servicePrice_Breakfast]
      simp [cataloguePrice]
    · rw [show (⟨2⟩ : ServiceType) = ServiceType.Lunch from rfl,
        addService_of_price b servicePrice_Lunch]
      simp [cataloguePrice]
    · rw [show (⟨3⟩ : ServiceType) = ServiceType.Dinner from rfl,
        addService_of_price b servicePrice_Dinner]
      simp [cataloguePrice]
    · rw [show (⟨4⟩ : ServiceType) = ServiceType.FullMeal from rfl,
        addService_of_price b servicePrice_FullMeal]
      simp [cataloguePrice]
    · rw [show (⟨5⟩ : ServiceType) = ServiceType.Sauna from rfl,
        addService_of_price b servicePrice_Sauna]
      simp [cataloguePrice]
    · rw [show (⟨6⟩ : ServiceType) = ServiceType.Pool from rfl,
        addService_of_price b servicePrice_Pool]
      simp [cataloguePrice]
    · rw [show (⟨7⟩ : ServiceType) = ServiceType.BathAccessories from rfl,
        addService_of_price b servicePrice_BathAccessories]
      simp [cataloguePrice]
    · rw [show (⟨8⟩ : ServiceType) = ServiceType.Laundry from rfl,
        addService_of_price b servicePrice_Laundry]
      simp [cataloguePrice]
  · rw [if_neg h]
    have h' : c < 1 ∨ 8 < c := by omega
    simp only [Booking.addService, servicePrice_of_unknown c h', add_zero]

theorem serviceCost_after_selectServices (codes : List Int) :
    ∀ b : Booking,
      (selectServices b codes).1.serviceCost
        = b.serviceCost + ((pricedCodes codes).map cataloguePrice).sum := by
  induction codes with
  | nil => intro b; simp [selectServices, pricedCodes]
  | cons c rest ih =>
    intro b
    by_cases h0 : c = 0
    · subst h0
      simp [selectServices, pricedCodes]
    · have hrest : pricedCodes (c :: rest)
          = (if 1 ≤ c ∧ c ≤ 8 then [c] else []) ++ pricedCodes rest := by
        unfold pricedCodes
        rw [List.takeWhile_cons_of_pos (by simpa using h0)]
        by_cases h : 1 ≤ c ∧ c ≤ 8
        · rw [List.filter_cons_of_pos (by simpa using h), if_pos h]
          rfl
        · rw [List.filter_cons_of_neg (by simpa using h), if_neg h]
          rfl
      simp only [selectServices, h0, if_false]
      rw [ih, addService_cost, hrest]
      by_cases h : 1 ≤ c ∧ c ≤ 8
      · simp only [if_pos h, List.singleton_append, List.map_cons, List.sum_cons]
        ring
      · simp only [if_neg h, List.nil_append, add_zero]

/-- C9: for every booking and every list of integers extracted from the service
line, `serviceCost` after the selection loop is its value before (`0` for a new
booking) plus the sum of the catalogue prices of the codes in `1..8` that occur
before the first `0` (or before the end of the list), once per occurrence; the
result does not depend on the order of those codes, and codes outside `0..8` add
nothing and do not stop the loop. -/
theorem selectServices_cost (b : Booking) (codes : List Int) :
    (selectServices b codes).1.serviceCost
        = b.serviceCost + ((pricedCodes codes).map cataloguePrice).sum
      ∧ (b.serviceCost = 0 →
          (selectServices b codes).1.serviceCost
            = ((pricedCodes codes).map cataloguePrice).sum)
      ∧ (∀ codes' : List Int,
          (codes'.takeWhile (fun c => c ≠ 0)).Perm (codes.takeWhile (fun c => c ≠ 0)) →
            (selectServices b codes').1.serviceCost = (selectServices b codes).1.serviceCost)
      ∧ (∀ (unknown : Int) (before after : List Int),
          (unknown < 0 ∨ 8 < unknown) →
            (selectServices b (before ++ unknown :: after)).1.serviceCost
              = (selectServices b (before ++ after)).1.serviceCost) := by
  refine ⟨serviceCost_after_selectServices codes b, ?_, ?_, ?_⟩
  · intro h0
    rw [serviceCost_after_selectServices, h0, zero_add]
  · intro codes' hperm
    rw [serviceCost_after_selectServices, serviceCost_after_selectServices]
    have hp : (pricedCodes codes').Perm (pricedCodes codes) := hperm.filter _
    rw [(hp.map cataloguePrice).sum_eq]
  · intro unknown before after hu
    rw [serviceCost_after_selectServices, serviceCost_after_selectServices]
    have hne : unknown ≠ 0 := by omega
    have hnot : ¬ (1 ≤ unknown ∧ unknown ≤ 8) := by omega
    have hpc : pricedCodes (before ++ unknown :: after) = pricedCodes (before ++ after) := by
      induction before with
      | nil =>
        unfold pricedCodes
        simp only [List.nil_append]
        rw [List.takeWhile_cons_of_pos (by simpa using hne),
          List.filter_cons_of_neg (by simpa using hnot)]
      | cons x xs ihx =>
        unfold pricedCodes at ihx ⊢
        simp only [List.cons_append]
        by_cases hx : x = 0
        · subst hx
          simp
        · rw [List.takeWhile_cons_of_pos (by simpa using hx),
            List.takeWhile_cons_of_pos (by simpa using hx)]
          by_cases hx8 : 1 ≤ x ∧ x ≤ 8
          · rw [List.filter_cons_of_pos (by simpa using hx8),
              List.filter_cons_of_pos (by simpa using hx8), ihx]
          · rw [List.filter_cons_of_neg (by simpa using hx8),
              List.filter_cons_of_neg (by simpa using hx8), ihx]
    rw [hpc]

/-- Witness for C9: the extracted integers `1 99 5 1 0 8` on a booking that
already carries 650 of services add 300 + 650 + 300. -/
theorem selectServices_cost_witness :
    (selectServices sampleBooking [1, 99, 5, 1, 0, 8]).1.serviceCost = 1900 := by
  have h := (selectServices_cost sampleBooking [1, 99, 5, 1, 0, 8]).1
  rw [h]
  norm_num [pricedCodes, cataloguePrice, sampleBooking]

/-! ## Group booking -/

theorem initial_rooms_find_101 :
    HotelState.initial.roomManager.rooms.find "101" = some ("Single Room", 1000) := by
  simp [HotelState.initial, RoomManager.new, roomDetails, UMap.find, List.lookup]

theorem initial_occupied_find_101 :
    HotelState.initial.roomManager.occupiedRooms.find "101" = some false := by
  simp [HotelState.initial, RoomManager.new, roomDetails, UMap.find, UMap.set, List.lookup]

theorem initial_occupancyRate : HotelState.initial.roomManager.getOccupancyRate = 0 := by
  have hzero : (HotelState.initial.roomManager.occupiedRooms.filter (fun p => p.2)).length
      = 0 := by
    rw [List.length_eq_zero, List.filter_eq_nil_iff]
    intro e he
    simp [new_all_vacant roomDetails e he]
  simp only [RoomManager.getOccupancyRate, hzero]
  norm_num

/-- C7 (the code at the failing input): from the initial state, a group run of two
slots that both ask for room 101 prints no rejection and produces two bookings,
both for room 101, whose totals are both added to the group total. -/
theorem groupBooking_same_room_twice :
    (groupBooking HotelState.initial 2 sameRoomTwice).map
        (fun r => (r.2.1.map Booking.getRoomNumber, r.2.2.1, r.2.2.2))
      = .ok (["101", "101"], 2000, []) := by
  have havail : HotelState.initial.roomManager.isAvailable "101" = .ok true := by
    simp only [RoomManager.isAvailable, initial_rooms_find_101, UMap.atKey,
      initial_occupied_find_101, Bool.not_false]
  have hprice : HotelState.initial.roomManager.getAdjustedPrice "101" = .ok 1000 := by
    simp only [RoomManager.getAdjustedPrice, UMap.atKey, initial_rooms_find_101]
  have hmake : makeBooking HotelState.initial.roomManager [] ⟨"101", 1, "", [0]⟩
      = .ok ({ roomNumber := "101", roomType := "Single Room", nights := 1,
               basePrice := 1000, serviceCost := 0, discount := 0, occupancyRate := 0,
               client := none }, [], []) := by
    simp only [makeBooking, lookupClient, hprice, initial_occupancyRate, Booking.new,
      selectServices, if_true]
    norm_num
  have hto : toInt (0 : ℚ) = .ok 0 := by
    have h := toInt_intCast 0 (by decide) (by decide)
    simpa using h
  have hcalc : Booking.calculateTotal
      { roomNumber := "101", roomType := "Single Room", nights := 1, basePrice := 1000,
        serviceCost := 0, discount := 0, occupancyRate := 0, client := none } []
      = .ok 1000 := by
    simp only [Booking.calculateTotal, hto]
    norm_num
  have hclients : HotelState.initial.clients = [] := rfl
  simp only [groupBooking, hclients, show (2 : Int).toNat = 2 from rfl, groupLoop,
    sameRoomTwice, havail, hmake, List.nil_append, List.cons_append, groupTotal, hcalc,
    Except.map, List.map, Booking.getRoomNumber]
  norm_num

/-! ## Client::getDiscount is monotone -/

/-- C11: for all point counts `0 ≤ p ≤ q`, the discount of a client holding `p`
points is at most the discount of a client holding `q` points. -/
theorem getDiscount_monotone (c d : Client) (h0 : 0 ≤ c.bonusPoints)
    (hle : c.bonusPoints ≤ d.bonusPoints) : c.getDiscount ≤ d.getDiscount := by
  have hd0 : 0 ≤ d.bonusPoints := le_trans h0 hle
  have hdiv : c.bonusPoints / 5000 ≤ d.bonusPoints / 5000 :=
    Int.ediv_le_ediv (by decide) hle
  simp only [Client.getDiscount, Int.tdiv_eq_ediv h0 (by decide : (0 : Int) ≤ 5000),
    Int.tdiv_eq_ediv hd0 (by decide : (0 : Int) ≤ 5000)]
  by_cases hc : c.bonusPoints / 5000 * 5 > 75
  · have hdgt : d.bonusPoints / 5000 * 5 > 75 := by omega
    rw [if_pos hc, if_pos hdgt]
  · rw [if_neg hc]
    by_cases hdgt : d.bonusPoints / 5000 * 5 > 75
    · rw [if_pos hdgt]
      have : c.bonusPoints / 5000 * 5 ≤ (75 : Int) := not_lt.mp hc
      exact_mod_cast this
    · rw [if_neg hdgt]
      have : c.bonusPoints / 5000 * 5 ≤ d.bonusPoints / 5000 * 5 := by omega
      exact_mod_cast this

/-- Witness for C11: 4999 points against 5000 points. -/
theorem getDiscount_monotone_witness :
    (Client.mk "Ann" 4999).getDiscount ≤ (Client.mk "Bob" 5000).getDiscount :=
  getDiscount_monotone (Client.mk "Ann" 4999) (Client.mk "Bob" 5000) (by decide) (by decide)

/-! ## The client lookup -/

theorem UMap.filter_ne_of_find_none {β : Type} (m : UMap β) (k : String)
    (h : m.find k = none) : m.filter (fun e => e.1 ≠ k) = m := by
  induction m with
  | nil => rfl
  | cons e m ih =>
    obtain ⟨a, v⟩ := e
    by_cases hk : k = a
    · subst hk
      simp [UMap.find, List.lookup] at h
    · have hne : (k == a) = false := by simpa using hk
      have hfind : UMap.find m k = none := by
        simpa [UMap.find, List.lookup, hne] using h
      have hak : a ≠ k := fun h' => hk h'.symm
      simp only [List.filter, ne_eq, hak, not_false_eq_true, decide_True]
      rw [ih hfind]

theorem UMap.set_of_find_none {β : Type} (m : UMap β) (k : String) (v : β)
    (h : m.find k = none) : m.set k v = (k, v) :: m := by
  simp only [UMap.set, UMap.filter_ne_of_find_none m k h]

/-- C12: the client lookup of a booking, for every ledger and every name: an
empty name gives no client and the same ledger; a name of the ledger gives that
name's entry and the same ledger, so the record keeps its points and every other
record is unchanged; a name that is not in the ledger gives the entry of that
name in a ledger with exactly one more record, `Client(name)` with zero points,
all other records being unchanged. -/
theorem lookupClient_spec (clients : Clients) (name : String) :
    (name = "" → lookupClient clients name = (none, clients))
      ∧ (∀ cl, name ≠ "" → clients.find name = some cl →
          lookupClient clients name = (some name, clients))
      ∧ (name ≠ "" → clients.find name = none →
          lookupClient clients name = (some name, (name, ⟨name, 0⟩) :: clients)
            ∧ (lookupClient clients name).2.find name = some ⟨name, 0⟩
            ∧ (lookupClient clients name).2.length = clients.length + 1
            ∧ ∀ k, k ≠ name → (lookupClient clients name).2.find k = clients.find k) := by
  refine ⟨?_, ?_, ?_⟩
  · intro h
    simp only [lookupClient, h, if_true]
  · intro cl hne hfind
    simp only [lookupClient, hne, if_false, hfind]
  · intro hne hfind
    have hl : lookupClient clients name = (some name, (name, ⟨name, 0⟩) :: clients) := by
      simp only [lookupClient, hne, if_false, hfind, UMap.set_of_find_none clients name _ hfind,
        Client.new]
    refine ⟨hl, ?_, ?_, ?_⟩
    · rw [hl]
      simp [UMap.find, List.lookup]
    · rw [hl]
      rfl
    · intro k hk
      rw [hl]
      have hne' : (k == name) = false := by simpa using hk
      simp only [UMap.find, List.lookup, hne']

/-- Witness for C12: the names "", "Ann" and "Bob" looked up in a ledger that
holds Ann with 1000 points. -/
theorem lookupClient_spec_witness :
    lookupClient [("Ann", ⟨"Ann", 1000⟩)] "" = (none, [("Ann", ⟨"Ann", 1000⟩)])
      ∧ lookupClient [("Ann", ⟨"Ann", 1000⟩)] "Ann" = (some "Ann", [("Ann", ⟨"Ann", 1000⟩)])
      ∧ lookupClient [("Ann", ⟨"Ann", 1000⟩)] "Bob"
          = (some "Bob", [("Bob", ⟨"Bob", 0⟩), ("Ann", ⟨"Ann", 1000⟩)]) :=
  ⟨(lookupClient_spec [("Ann", ⟨"Ann", 1000⟩)] "").1 rfl,
   (lookupClient_spec [("Ann", ⟨"Ann", 1000⟩)] "Ann").2.1 ⟨"Ann", 1000⟩ (by decide)
     (by simp [UMap.find, List.lookup]),
   ((lookupClient_spec [("Ann", ⟨"Ann", 1000⟩)] "Bob").2.2 (by decide)
     (by simp [UMap.find, List.lookup])).1⟩

/-! ## RoomManager::getAdjustedPrice -/

theorem foldl_RoomOp_rooms (ops : List RoomOp) :
    ∀ rm : RoomManager, (ops.foldl RoomOp.run rm).rooms = rm.rooms := by
  induction ops with
  | nil => intro rm; rfl
  | cons op ops ih =>
    intro rm
    rw [List.foldl_cons, ih]
    cases op <;> rfl

/-- C13: for every inventory and every sequence of `setOccupied` / `setVacant`
calls on arbitrary room numbers, `getAdjustedPrice` returns the nightly rate given
at initialization for a room number of the inventory and fails with
`out_of_range` for any other; it succeeds whenever `isAvailable` is true. -/
theorem getAdjustedPrice_spec (rd : UMap (String × ℚ)) (ops : List RoomOp)
    (roomId : String) :
    (∀ room, rd.find roomId = some room →
        (ops.foldl RoomOp.run (RoomManager.new rd)).getAdjustedPrice roomId = .ok room.2)
      ∧ (rd.find roomId = none →
          (ops.foldl RoomOp.run (RoomManager.new rd)).getAdjustedPrice roomId
            = .error .out_of_range)
      ∧ ((ops.foldl RoomOp.run (RoomManager.new rd)).isAvailable roomId = .ok true →
          ∃ room, rd.find roomId = some room
            ∧ (ops.foldl RoomOp.run (RoomManager.new rd)).getAdjustedPrice roomId
                = .ok room.2) := by
  have hrooms : (ops.foldl RoomOp.run (RoomManager.new rd)).rooms = rd :=
    foldl_RoomOp_rooms ops (RoomManager.new rd)
  refine ⟨?_, ?_, ?_⟩
  · intro room h
    simp only [RoomManager.getAdjustedPrice, UMap.atKey, hrooms, h]
  · intro h
    simp only [RoomManager.getAdjustedPrice, UMap.atKey, hrooms, h]
  · intro h
    cases hfind : rd.find roomId with
    | none =>
      simp only [RoomManager.isAvailable, hrooms, hfind] at h
      cases h
    | some room =>
      exact ⟨room, rfl, by simp only [RoomManager.getAdjustedPrice, UMap.atKey, hrooms, hfind]⟩

/-- Witness for C13: in the built-in inventory, after room 101 is occupied and an
unknown room 999 is vacated, room 101 still costs 1000 and room 999 has no
price. -/
theorem getAdjustedPrice_spec_witness :
    ([RoomOp.setOccupied "101", RoomOp.setVacant "999"].foldl RoomOp.run
        (RoomManager.new roomDetails)).getAdjustedPrice "101" = .ok 1000
      ∧ ([RoomOp.setOccupied "101", RoomOp.setVacant "999"].foldl RoomOp.run
          (RoomManager.new roomDetails)).getAdjustedPrice "999" = .error .out_of_range :=
  ⟨(getAdjustedPrice_spec roomDetails [RoomOp.setOccupied "101", RoomOp.setVacant "999"]
      "101").1 ("Single Room", 1000) (by simp [roomDetails, UMap.find, List.lookup]),
   (getAdjustedPrice_spec roomDetails [RoomOp.setOccupied "101", RoomOp.setVacant "999"]
      "999").2.1 (by simp [roomDetails, UMap.find, List.lookup])⟩

/-! ## Discounts and the sign of the total -/

theorem getDiscount_le_75 (c : Client) : c.getDiscount ≤ 75 := by
  simp only [Client.getDiscount]
  by_cases h : Int.tdiv c.bonusPoints 5000 * 5 > 75
  · rw [if_pos h]
  · rw [if_neg h]
    have : Int.tdiv c.bonusPoints 5000 * 5 ≤ (75 : Int) := not_lt.mp h
    exact_mod_cast this

theorem clientDiscount_le_75 (b : Booking) (clients : Clients) :
    clientDiscount b clients ≤ 75 := by
  cases hc : b.client with
  | none =>
    simp only [clientDiscount, hc]
    norm_num
  | some k =>
    cases hf : clients.find k with
    | none =>
      simp only [clientDiscount, hc, hf]
      norm_num
    | some cl =>
      simp only [clientDiscount, hc, hf]
      exact getDiscount_le_75 cl

theorem calculateTotal_of_subtotal (b : Booking) (clients : Clients) (s : ℚ)
    (hsub : b.subtotal = .ok s)
    (hclient : ∀ k, b.client = some k → ∃ cl, clients.find k = some cl) :
    b.calculateTotal clients
      = .ok (s * (1 - b.discount / 100) * (1 - clientDiscount b clients / 100)) := by
  unfold Booking.subtotal at hsub
  cases hto : toInt b.occupancyRate with
  | error f =>
    rw [hto] at hsub
    cases hsub
  | ok occ =>
    rw [hto] at hsub
    have hs : b.basePrice * (1 + ((Int.tdiv occ 10 : Int) : ℚ) * (5 / 100)) * b.nights
        + b.serviceCost = s := by
      injection hsub
    cases hc : b.client with
    | none =>
      simp only [Booking.calculateTotal, hto, hc, clientDiscount, hs]
      congr 1
      ring
    | some k =>
      obtain ⟨cl, hcl⟩ := hclient k hc
      simp only [Booking.calculateTotal, hto, hc, hcl, clientDiscount, hs]
      congr 1
      ring

/-- C14: for every booking whose subtotal `dynamicPrice × nights + serviceCost`, as
`calculateTotal` computes it, is positive, after `applyDiscount(percent)` with
`percent > 100` the total returned by `calculateTotal` is negative, with or
without a client: it is `subtotal × (1 − percent/100) × (1 − clientDiscount/100)`
and the percent is neither validated nor clamped. -/
theorem total_negative_of_discount_above_100 (b : Booking) (clients : Clients)
    (s percent : ℚ) (hsub : b.subtotal = .ok s) (hpos : 0 < s) (hpct : 100 < percent)
    (hclient : ∀ k, b.client = some k → ∃ cl, clients.find k = some cl) :
    ∃ t, (b.applyDiscount percent).calculateTotal clients = .ok t
      ∧ t < 0
      ∧ t = s * (1 - percent / 100) * (1 - clientDiscount b clients / 100) := by
  have hcalc := calculateTotal_of_subtotal (b.applyDiscount percent) clients s hsub hclient
  refine ⟨_, hcalc, ?_, rfl⟩
  have h75 : clientDiscount (b.applyDiscount percent) clients ≤ 75 :=
    clientDiscount_le_75 _ _
  have hfac : (0 : ℚ) < 1 - clientDiscount (b.applyDiscount percent) clients / 100 := by
    linarith
  have hneg : (1 : ℚ) - (b.applyDiscount percent).discount / 100 < 0 := by
    show (1 : ℚ) - percent / 100 < 0
    linarith
  exact mul_neg_of_neg_of_pos (mul_neg_of_pos_of_neg hpos hneg) hfac

theorem toInt_50 : toInt (50 : ℚ) = .ok 50 := by
  have h := toInt_intCast 50 (by decide) (by decide)
  simpa using h

theorem sampleBooking_subtotal : sampleBooking.subtotal = .ok 3150 := by
  have h5 : Int.tdiv 50 10 = 5 := by decide
  simp only [Booking.subtotal, sampleBooking, toInt_50, h5]
  norm_num

/-- Witness for C14: the sample booking (subtotal 3150, client Ann with a 10%
loyalty discount) after `applyDiscount(150)`. -/
theorem total_negative_of_discount_above_100_witness :
    ∃ t, (sampleBooking.applyDiscount 150).calculateTotal [("Ann", ⟨"Ann", 12000⟩)] = .ok t
      ∧ t < 0
      ∧ t = 3150 * (1 - 150 / 100)
          * (1 - clientDiscount sampleBooking [("Ann", ⟨"Ann", 12000⟩)] / 100) :=
  total_negative_of_discount_above_100 sampleBooking [("Ann", ⟨"Ann", 12000⟩)] 3150 150
    sampleBooking_subtotal (by norm_num) (by norm_num)
    (by
      intro k hk
      refine ⟨⟨"Ann", 12000⟩, ?_⟩
      have hk' : k = "Ann" := by
        simp only [sampleBooking, Option.some.injEq] at hk
        exact hk.symm
      subst hk'
      simp [UMap.find, List.lookup])

/-! ## Bounds on the total -/

theorem servicePrice_nonneg {service : ServiceType} {p : ℚ}
    (h : Booking.servicePrice service = some p) : 0 ≤ p := by
  unfold Booking.servicePrice at h
  split_ifs at h <;> (injection h with h'; rw [← h']; norm_num)

theorem addService_fields (b : Booking) (service : ServiceType) :
    ∃ p : ℚ, 0 ≤ p ∧ (b.addService service).1 = { b with serviceCost := b.serviceCost + p } := by
  cases hp : Booking.servicePrice service with
  | none =>
    refine ⟨0, le_refl 0, ?_⟩
    simp only [Booking.addService, hp, add_zero]
  | some p =>
    exact ⟨p, servicePrice_nonneg hp, by simp only [Booking.addService, hp]⟩

theorem discount_of_nonneg_points (c : Client) (h : 0 ≤ c.bonusPoints) :
    c.getDiscount = min 75 ((⌊(c.bonusPoints : ℚ) / 5000⌋ : ℚ) * 5) := by
  have hfl : Int.tdiv c.bonusPoints 5000 = ⌊(c.bonusPoints : ℚ) / 5000⌋ :=
    tdiv_5000_eq_floor h
  simp only [Client.getDiscount, hfl]
  by_cases hgt : ⌊(c.bonusPoints : ℚ) / 5000⌋ * 5 > 75
  · have hq : (75 : ℚ) ≤ (⌊(c.bonusPoints : ℚ) / 5000⌋ : ℚ) * 5 := by
      have : (75 : Int) ≤ ⌊(c.bonusPoints : ℚ) / 5000⌋ * 5 := le_of_lt hgt
      exact_mod_cast this
    rw [if_pos hgt, min_eq_left hq]
  · have hq : (⌊(c.bonusPoints : ℚ) / 5000⌋ : ℚ) * 5 ≤ 75 := by
      have : ⌊(c.bonusPoints : ℚ) / 5000⌋ * 5 ≤ (75 : Int) := not_lt.mp hgt
      exact_mod_cast this
    rw [if_neg hgt, min_eq_right hq]
    push_cast
    ring

theorem Booking_new_of_spend_fit (roomNum roomT : String) (n : Int) (price occupancy : ℚ)
    (k : String) (clients : Clients) (cl : Client)
    (hfind : clients.find k = some cl) (hs : 0 ≤ price * n)
    (hp : 0 ≤ cl.bonusPoints) (hsum : cl.bonusPoints + ⌊price * n / 20⌋ ≤ INT_MAX) :
    Booking.new roomNum roomT n price occupancy (some k) clients
      = .ok ({ roomNumber := roomNum, roomType := roomT, nights := n, basePrice := price,
               serviceCost := 0, discount := 0, occupancyRate := occupancy,
               client := some k },
             clients.set k { cl with bonusPoints := cl.bonusPoints + ⌊price * n / 20⌋ }) := by
  have hmin : INT_MIN ≤ cl.bonusPoints := by
    have : INT_MIN ≤ 0 := by decide
    omega
  have hcast : ⌊price * n / 20⌋ ≤ INT_MAX := by omega
  simp only [Booking.new, hfind, addBonusPoints_of_fit cl hs hmin hcast hsum]

/-- C16 (as amended): for a client of the ledger holding `p ≥ 0` points and a
booking with room spend `s = basePrice × nights ≥ 0` such that `p + ⌊s/20⌋` does
not exceed `INT_MAX`, the construction succeeds and afterwards the loyalty
discount of the booking is `min 75 (⌊(p + ⌊s/20⌋) / 5000⌋ × 5)`: every booking
that points to this client, the new one included, has the total
`subtotal × (1 − discount/100) × (1 − that percent/100)`. -/
theorem loyalty_discount_includes_own_award (roomNum roomT : String) (n : Int)
    (price occupancy : ℚ) (k : String) (clients : Clients) (cl : Client)
    (hfind : clients.find k = some cl) (hp : 0 ≤ cl.bonusPoints) (hs : 0 ≤ price * n)
    (hfit : cl.bonusPoints + ⌊price * n / 20⌋ ≤ INT_MAX) :
    ∃ b clients',
      Booking.new roomNum roomT n price occupancy (some k) clients = .ok (b, clients')
        ∧ b.client = some k
        ∧ clientDiscount b clients'
            = min 75 ((⌊((cl.bonusPoints + ⌊price * n / 20⌋ : Int) : ℚ) / 5000⌋ : ℚ) * 5)
        ∧ ∀ (b' : Booking) (s : ℚ), b'.client = some k → b'.subtotal = .ok s →
            b'.calculateTotal clients'
              = .ok (s * (1 - b'.discount / 100)
                  * (1 - min 75
                      ((⌊((cl.bonusPoints + ⌊price * n / 20⌋ : Int) : ℚ) / 5000⌋ : ℚ) * 5)
                    / 100)) := by
  have haward : 0 ≤ ⌊price * n / 20⌋ := Int.floor_nonneg.mpr (by positivity)
  have hnew := Booking_new_of_spend_fit roomNum roomT n price occupancy k clients cl hfind hs
    hp hfit
  have hfind' : (clients.set k
      { cl with bonusPoints := cl.bonusPoints + ⌊price * n / 20⌋ }).find k
      = some { cl with bonusPoints := cl.bonusPoints + ⌊price * n / 20⌋ } :=
    UMap.find_set_self _ _ _
  have hdisc : ({ cl with bonusPoints := cl.bonusPoints + ⌊price * n / 20⌋ } : Client).getDiscount
      = min 75 ((⌊((cl.bonusPoints + ⌊price * n / 20⌋ : Int) : ℚ) / 5000⌋ : ℚ) * 5) :=
    discount_of_nonneg_points _ (by show 0 ≤ cl.bonusPoints + ⌊price * n / 20⌋; omega)
  refine ⟨_, _, hnew, rfl, ?_, ?_⟩
  · simp only [clientDiscount, hfind', hdisc]
  · intro b' s hc hsub
    have hcalc := calculateTotal_of_subtotal b' _ s hsub
      (fun k' hk' => by
        rw [hc] at hk'
        injection hk' with hk'
        subst hk'
        exact ⟨_, hfind'⟩)
    rw [hcalc]
    simp only [clientDiscount, hc, hfind', hdisc]

theorem toInt_zero : toInt (0 : ℚ) = .ok 0 := by
  have h := toInt_intCast 0 (by decide) (by decide)
  simpa using h

/-- Witness for C16: a new client Ann whose first booking is 100 nights in room
101 (1000 a night, spend 100000) has a 5% discount on that booking, whose total
is 95000. -/
theorem loyalty_discount_includes_own_award_witness :
    ∃ b clients',
      Booking.new "101" "Single Room" 100 1000 0 (some "Ann") [("Ann", Client.new "Ann")]
          = .ok (b, clients')
        ∧ clientDiscount b clients' = 5
        ∧ b.calculateTotal clients' = .ok 95000 := by
  have hfl : ⌊(1000 : ℚ) * ((100 : Int) : ℚ) / 20⌋ = 5000 := by
    rw [Int.floor_eq_iff]
    norm_num
  have hfind : UMap.find [("Ann", Client.new "Ann")] "Ann" = some (Client.new "Ann") := by
    simp [UMap.find, List.lookup]
  obtain ⟨b, clients', hnew, hc, hdisc, hall⟩ :=
    loyalty_discount_includes_own_award "101" "Single Room" 100 1000 0 "Ann"
      [("Ann", Client.new "Ann")] (Client.new "Ann") hfind (by decide) (by norm_num)
      (by rw [hfl]; decide)
  have hmin : min (75 : ℚ)
      ((⌊(((Client.new "Ann").bonusPoints + ⌊(1000 : ℚ) * ((100 : Int) : ℚ) / 20⌋ : Int) : ℚ)
          / 5000⌋ : ℚ) * 5) = 5 := by
    rw [hfl]
    have h1 : ⌊((((Client.new "Ann").bonusPoints + 5000 : Int)) : ℚ) / 5000⌋ = 1 := by
      rw [Int.floor_eq_iff]
      norm_num [Client.new]
    rw [h1]
    norm_num
  have hb : b = ⟨"101", "Single Room", 100, 1000, 0, 0, 0, some "Ann"⟩ := by
    have h' := Booking_new_of_spend_fit "101" "Single Room" 100 1000 0 "Ann"
      [("Ann", Client.new "Ann")] (Client.new "Ann") hfind (by norm_num) (by decide)
      (by rw [hfl]; decide)
    rw [h'] at hnew
    injection hnew with hnew
    injection hnew with hb _
    exact hb.symm
  have hsub : b.subtotal = .ok 100000 := by
    rw [hb]
    have h0 : Int.tdiv 0 10 = 0 := by decide
    simp only [Booking.subtotal, toInt_zero, h0]
    norm_num
  refine ⟨b, clients', hnew, ?_, ?_⟩
  · rw [hdisc, hmin]
  · rw [hall b 100000 hc hsub, hmin, hb]
    norm_num

theorem Booking_new_at_nearMaxLedger :
    Booking.new "101" "Single Room" 1 1000 0 (some "Ann") nearMaxLedger
      = .ok (⟨"101", "Single Room", 1, 1000, 0, 0, 0, some "Ann"⟩,
             [("Ann", ⟨"Ann", -2147483646⟩)]) := by
  have hq : (1000 : ℚ) * ((1 : Int) : ℚ) / 20 = ((50 : Int) : ℚ) := by norm_num
  have hto : toInt ((1000 : ℚ) * ((1 : Int) : ℚ) / 20) = .ok 50 := by
    rw [hq]
    exact toInt_intCast 50 (by decide) (by decide)
  have hw : wrapInt32 (2147483600 + 50) = -2147483646 := by decide
  have hfind : UMap.find nearMaxLedger "Ann" = some ⟨"Ann", 2147483600⟩ := by
    simp [nearMaxLedger, UMap.find, List.lookup]
  have hset : UMap.set nearMaxLedger "Ann" (Client.mk "Ann" (-2147483646))
      = [("Ann", ⟨"Ann", -2147483646⟩)] := by
    simp [UMap.set, nearMaxLedger]
  have h := Booking_new_of_cast "101" "Single Room" 1 1000 0 "Ann" nearMaxLedger
    ⟨"Ann", 2147483600⟩ 50 hfind hto
  simp only [hw, hset] at h
  exact h

/-- C16 (counterexample): Ann holds 2147483600 points and books room 101 (1000 a
night) for one night, a spend of 1000; the formula gives a 75% discount, but after
the construction her discount is -2147480 percent and the total of the booking is
21475800. -/
theorem loyalty_discount_wrong_after_overflow :
    Booking.new "101" "Single Room" 1 1000 0 (some "Ann") nearMaxLedger
        = .ok (⟨"101", "Single Room", 1, 1000, 0, 0, 0, some "Ann"⟩,
               [("Ann", ⟨"Ann", -2147483646⟩)])
      ∧ min (75 : ℚ)
          ((⌊(((2147483600 + ⌊(1000 : ℚ) * ((1 : Int) : ℚ) / 20⌋ : Int)) : ℚ) / 5000⌋ : ℚ) * 5)
          = 75
      ∧ clientDiscount ⟨"101", "Single Room", 1, 1000, 0, 0, 0, some "Ann"⟩
          [("Ann", ⟨"Ann", -2147483646⟩)] = -2147480
      ∧ Booking.calculateTotal ⟨"101", "Single Room", 1, 1000, 0, 0, 0, some "Ann"⟩
          [("Ann", ⟨"Ann", -2147483646⟩)] = .ok 21475800 := by
  have hfind : UMap.find [("Ann", (⟨"Ann", -2147483646⟩ : Client))] "Ann"
      = some ⟨"Ann", -2147483646⟩ := by
    simp [UMap.find, List.lookup]
  have hdisc : (Client.mk "Ann" (-2147483646)).getDiscount = -2147480 := by
    have ht : Int.tdiv (-2147483646) 5000 * 5 = -2147480 := by decide
    simp only [Client.getDiscount, ht]
    norm_num
  have h0 : Int.tdiv 0 10 = 0 := by decide
  refine ⟨Booking_new_at_nearMaxLedger, ?_, ?_, ?_⟩
  · have hfl : ⌊(1000 : ℚ) * ((1 : Int) : ℚ) / 20⌋ = 50 := by
      rw [Int.floor_eq_iff]
      norm_num
    rw [hfl]
    have h2 : ⌊(((2147483600 + 50 : Int)) : ℚ) / 5000⌋ = 429496 := by
      rw [Int.floor_eq_iff]
      norm_num
    rw [h2]
    norm_num
  · simp only [clientDiscount, hfind, hdisc]
  · simp only [Booking.calculateTotal, toInt_zero, h0, hfind, hdisc]
    norm_num

/-! ## Points as the sum of the awards -/

theorem pointsTrace_eq_runningSums (k : String) (args : List BookingArgs) :
    ∀ (clients : Clients) (cl : Client), clients.find k = some cl →
      0 ≤ cl.bonusPoints → (∀ a ∈ args, 0 ≤ a.spend) →
      cl.bonusPoints + (args.map BookingArgs.award).sum ≤ INT_MAX →
      pointsTrace k clients args
        = .ok (runningSums cl.bonusPoints (args.map BookingArgs.award)) := by
  induction args with
  | nil =>
    intro clients cl _ _ _ _
    rfl
  | cons a rest ih =>
    intro clients cl hfind hp hspend hsum
    have hs : 0 ≤ a.price * a.n := hspend a (List.mem_cons_self a rest)
    have haw : 0 ≤ a.award := Int.floor_nonneg.mpr (by positivity)
    have hdef : a.award = ⌊a.price * a.n / 20⌋ := rfl
    have hrest_nonneg : 0 ≤ (rest.map BookingArgs.award).sum := by
      apply List.sum_nonneg
      intro x hx
      obtain ⟨a', ha', rfl⟩ := List.mem_map.mp hx
      have hs' : 0 ≤ a'.price * a'.n := hspend a' (List.mem_cons_of_mem a ha')
      exact Int.floor_nonneg.mpr (by positivity)
    simp only [List.map_cons, List.sum_cons] at hsum
    have hnew := Booking_new_of_spend_fit a.roomNum a.roomT a.n a.price a.occupancy k clients
      cl hfind hs hp (by omega)
    have hrec := ih
      (clients.set k { cl with bonusPoints := cl.bonusPoints + ⌊a.price * a.n / 20⌋ })
      { cl with bonusPoints := cl.bonusPoints + ⌊a.price * a.n / 20⌋ }
      (UMap.find_set_self _ _ _)
      (by show 0 ≤ cl.bonusPoints + ⌊a.price * a.n / 20⌋; omega)
      (fun a' ha' => hspend a' (List.mem_cons_of_mem a ha'))
      (by show cl.bonusPoints + ⌊a.price * a.n / 20⌋ + _ ≤ INT_MAX; omega)
    simp only [pointsTrace, hnew, UMap.find_set_self, hrec, Client.getBonusPoints,
      List.map_cons, runningSums, hdef]

theorem runningSums_getLastD (l : List Int) :
    ∀ acc : Int, (runningSums acc l).getLastD acc = acc + l.sum := by
  induction l with
  | nil => intro acc; simp [runningSums]
  | cons x xs ih =>
    intro acc
    simp only [runningSums, List.getLastD_cons, ih, List.sum_cons]
    omega

theorem sum_award_le_floor (args : List BookingArgs) :
    (args.map BookingArgs.award).sum ≤ ⌊(args.map BookingArgs.spend).sum / 20⌋ := by
  rw [Int.le_floor]
  induction args with
  | nil => simp
  | cons a rest ih =>
    simp only [List.map_cons, List.sum_cons]
    have ha : ((a.award : Int) : ℚ) ≤ a.spend / 20 := Int.floor_le _
    rw [Int.cast_add, add_div]
    linarith

theorem sum_award_cast_of_multiples (args : List BookingArgs)
    (h : ∀ a ∈ args, ∃ m : Int, a.spend = 20 * m) :
    (((args.map BookingArgs.award).sum : Int) : ℚ) = (args.map BookingArgs.spend).sum / 20 := by
  induction args with
  | nil => simp
  | cons a rest ih =>
    obtain ⟨m, hm⟩ := h a (List.mem_cons_self a rest)
    have ha : a.award = m := by
      show ⌊a.price * a.n / 20⌋ = m
      have : a.price * a.n / 20 = (m : ℚ) := by
        have hm' : a.price * a.n = 20 * m := hm
        rw [hm']
        ring
      rw [this, Int.floor_intCast]
    simp only [List.map_cons, List.sum_cons]
    rw [Int.cast_add, ih (fun a' ha' => h a' (List.mem_cons_of_mem a ha')), ha, hm]
    ring

/-- C17 (as amended): for every sequence of bookings made by one client starting
from a record with zero points, with non-negative room spends
`s_i = basePrice_i × nights_i` whose awards `⌊s_i / 20⌋` sum to at most `INT_MAX`,
every construction succeeds, the points after each are the running sums of the
awards, so the final points are the sum of the `⌊s_i / 20⌋`; this sum is at most
`⌊(s_1 + … + s_m) / 20⌋` and equals it when every `s_i` is a multiple of 20. -/
theorem points_equal_sum_of_awards (k : String) (clients : Clients) (cl : Client)
    (args : List BookingArgs) (hfind : clients.find k = some cl)
    (hfresh : cl.bonusPoints = 0) (hspend : ∀ a ∈ args, 0 ≤ a.spend)
    (hfit : (args.map BookingArgs.award).sum ≤ INT_MAX) :
    pointsTrace k clients args = .ok (runningSums 0 (args.map BookingArgs.award))
      ∧ (runningSums 0 (args.map BookingArgs.award)).getLastD 0
          = (args.map BookingArgs.award).sum
      ∧ (args.map BookingArgs.award).sum ≤ ⌊(args.map BookingArgs.spend).sum / 20⌋
      ∧ ((∀ a ∈ args, ∃ m : Int, a.spend = 20 * m) →
          (args.map BookingArgs.award).sum = ⌊(args.map BookingArgs.spend).sum / 20⌋) := by
  refine ⟨?_, ?_, sum_award_le_floor args, ?_⟩
  · have h := pointsTrace_eq_runningSums k args clients cl hfind (by omega) hspend
      (by omega)
    rw [hfresh] at h
    exact h
  · rw [runningSums_getLastD, zero_add]
  · intro hmul
    rw [← sum_award_cast_of_multiples args hmul, Int.floor_intCast]

/-- Witness for C17: a new client Ann spends 20000 and then 80000 in room 101;
she holds 1000 points (discount 0%) and then 5000 points (discount 5%). -/
theorem points_equal_sum_of_awards_witness :
    pointsTrace "Ann" [("Ann", Client.new "Ann")] annStays = .ok [1000, 5000]
      ∧ (Client.mk "Ann" 1000).getDiscount = 0
      ∧ (Client.mk "Ann" 5000).getDiscount = 5 := by
  have h1 : ⌊(1000 : ℚ) * ((20 : Int) : ℚ) / 20⌋ = 1000 := by
    rw [Int.floor_eq_iff]
    norm_num
  have h2 : ⌊(1000 : ℚ) * ((80 : Int) : ℚ) / 20⌋ = 4000 := by
    rw [Int.floor_eq_iff]
    norm_num
  have hawards : annStays.map BookingArgs.award = [1000, 4000] := by
    simp only [annStays, List.map_cons, List.map_nil, BookingArgs.award, h1, h2]
  have h := (points_equal_sum_of_awards "Ann" [("Ann", Client.new "Ann")] (Client.new "Ann")
    annStays (by simp [UMap.find, List.lookup]) rfl
    (by
      intro a ha
      simp only [annStays, List.mem_cons, List.mem_singleton, List.not_mem_nil, or_false] at ha
      rcases ha with rfl | rfl <;> norm_num [BookingArgs.spend])
    (by rw [hawards]; decide)).1
  rw [hawards] at h
  refine ⟨h, ?_, ?_⟩
  · have ht : Int.tdiv 1000 5000 * 5 = 0 := by decide
    simp only [Client.getDiscount, ht]
    norm_num
  · have ht : Int.tdiv 5000 5000 * 5 = 5 := by decide
    simp only [Client.getDiscount, ht]
    norm_num

theorem pointsTrace_longStays :
    pointsTrace "Ann" [("Ann", Client.new "Ann")] longStays
      = .ok [2000000000, -294967296] := by
  have hq : (4000 : ℚ) * ((10000000 : Int) : ℚ) / 20 = ((2000000000 : Int) : ℚ) := by
    norm_num
  have hto : toInt ((4000 : ℚ) * ((10000000 : Int) : ℚ) / 20) = .ok 2000000000 := by
    rw [hq]
    exact toInt_intCast 2000000000 (by decide) (by decide)
  have hw1 : wrapInt32 ((Client.new "Ann").bonusPoints + 2000000000) = 2000000000 := by
    decide
  have hw2 : wrapInt32 (2000000000 + 2000000000) = -294967296 := by decide
  have hf0 : UMap.find [("Ann", Client.new "Ann")] "Ann" = some (Client.new "Ann") := by
    simp [UMap.find, List.lookup]
  have hn1 := Booking_new_of_cast "503" "Suite" 10000000 4000 0 "Ann"
    [("Ann", Client.new "Ann")] (Client.new "Ann") 2000000000 hf0 hto
  have hn2 := Booking_new_of_cast "503" "Suite" 10000000 4000 0 "Ann"
    (UMap.set [("Ann", Client.new "Ann")] "Ann" ⟨"Ann", 2000000000⟩) ⟨"Ann", 2000000000⟩
    2000000000 (UMap.find_set_self _ _ _) hto
  rw [hw1] at hn1
  simp only [hw2] at hn2
  simp only [pointsTrace, longStays]
  rw [show ({ Client.new "Ann" with bonusPoints := 2000000000 } : Client)
      = ⟨"Ann", 2000000000⟩ from rfl] at hn1
  simp only [hn1, UMap.find_set_self, hn2, Client.getBonusPoints]

/-- C17 (counterexample): a new client Ann spends 40000000000 twice (ten million
nights in room 503 at 4000); the awards sum to 4000000000, but her points after
the two constructions are -294967296. -/
theorem points_differ_from_sum_on_overflow :
    (∀ a ∈ longStays, 0 ≤ a.spend)
      ∧ pointsTrace "Ann" [("Ann", Client.new "Ann")] longStays
          = .ok [2000000000, -294967296]
      ∧ (longStays.map BookingArgs.award).sum = 4000000000
      ∧ (-294967296 : Int) ≠ (longStays.map BookingArgs.award).sum := by
  have hfl : ⌊(4000 : ℚ) * ((10000000 : Int) : ℚ) / 20⌋ = 2000000000 := by
    rw [Int.floor_eq_iff]
    norm_num
  have hsum : (longStays.map BookingArgs.award).sum = 4000000000 := by
    simp only [longStays, List.map_cons, List.map_nil, BookingArgs.award, hfl, List.sum_cons,
      List.sum_nil]
    decide
  refine ⟨?_, pointsTrace_longStays, hsum, ?_⟩
  · intro a ha
    simp only [longStays, List.mem_cons, List.mem_singleton, List.not_mem_nil, or_false] at ha
    rcases ha with rfl | rfl <;> norm_num [BookingArgs.spend]
  · rw [hsum]
    decide

/-! ## The booking flows of main -/

theorem Booking_new_booking (roomNum roomT : String) (n : Int) (price occupancy : ℚ)
    (c : Option String) (clients clients' : Clients) (b : Booking)
    (h : Booking.new roomNum roomT n price occupancy c clients = .ok (b, clients')) :
    b = ⟨roomNum, roomT, n, price, 0, 0, occupancy, c⟩ := by
  unfold Booking.new at h
  cases c with
  | none =>
    simp only at h
    injection h with h
    injection h with hb _
    exact hb.symm
  | some k =>
    cases hfind : clients.find k with
    | none =>
      simp only [hfind] at h
      cases h
    | some cl =>
      cases hadd : cl.addBonusPoints (price * n) with
      | error f =>
        simp only [hfind, hadd] at h
        cases h
      | ok cl' =>
        simp only [hfind, hadd] at h
        injection h with h
        injection h with hb _
        exact hb.symm

theorem selectServices_fields (codes : List Int) :
    ∀ b : Booking, ∃ p : ℚ, 0 ≤ p
      ∧ (selectServices b codes).1 = { b with serviceCost := b.serviceCost + p } := by
  induction codes with
  | nil =>
    intro b
    exact ⟨0, le_refl 0, by simp only [selectServices, add_zero]⟩
  | cons c rest ih =>
    intro b
    by_cases h0 : c = 0
    · exact ⟨0, le_refl 0, by simp only [selectServices, h0, if_true, add_zero]⟩
    · obtain ⟨p, hp, hb⟩ := addService_fields b ⟨c⟩
      obtain ⟨q, hq, hrest⟩ := ih (b.addService ⟨c⟩).1
      refine ⟨p + q, add_nonneg hp hq, ?_⟩
      simp only [selectServices, h0, if_false]
      rw [hrest, hb]
      simp only [add_assoc]

theorem makeBooking_booking (rm : RoomManager) (clients clients' : Clients) (inp : SlotInput)
    (b : Booking) (out : List String)
    (h : makeBooking rm clients inp = .ok (b, clients', out)) :
    ∃ price cost, rm.getAdjustedPrice inp.roomNum = .ok price
      ∧ b = ⟨inp.roomNum, if price > 1500 then "Suite" else "Single Room", inp.nights, price,
              cost, 0, rm.getOccupancyRate, (lookupClient clients inp.clientName).1⟩ := by
  unfold makeBooking at h
  cases hprice : rm.getAdjustedPrice inp.roomNum with
  | error f =>
    rw [hprice] at h
    cases h
  | ok price =>
    rw [hprice] at h
    simp only at h
    cases hnew : Booking.new inp.roomNum (if price > 1500 then "Suite" else "Single Room")
        inp.nights price rm.getOccupancyRate (lookupClient clients inp.clientName).1
        (lookupClient clients inp.clientName).2 with
    | error f =>
      rw [hnew] at h
      cases h
    | ok r =>
      obtain ⟨b0, c0⟩ := r
      rw [hnew] at h
      simp only at h
      injection h with h
      injection h with hb _
      have hb0 := Booking_new_booking _ _ _ _ _ _ _ _ _ hnew
      obtain ⟨p, _, hsel⟩ := selectServices_fields inp.services b0
      rw [hsel, hb0] at hb
      exact ⟨price, 0 + p, rfl, hb.symm⟩

theorem lookupClient_find (clients : Clients) (name key : String)
    (h : (lookupClient clients name).1 = some key) :
    ∃ cl, (lookupClient clients name).2.find key = some cl := by
  unfold lookupClient at h ⊢
  by_cases hn : name = ""
  · simp only [hn, if_true] at h
    cases h
  · simp only [hn, if_false] at h ⊢
    cases hfind : clients.find name with
    | none =>
      rw [hfind] at h
      simp only [Option.some.injEq] at h
      subst h
      exact ⟨_, UMap.find_set_self _ _ _⟩
    | some cl =>
      rw [hfind] at h
      simp only [Option.some.injEq] at h
      subst h
      exact ⟨cl, hfind⟩

theorem Booking_new_of_toInt (roomNum roomT : String) (n : Int) (price occupancy : ℚ)
    (c : Option String) (clients : Clients)
    (hc : ∀ k, c = some k → ∃ cl, clients.find k = some cl)
    (hto : c = none ∨ ∃ d, toInt (price * n / 20) = .ok d) :
    ∃ clients', Booking.new roomNum roomT n price occupancy c clients
        = .ok (⟨roomNum, roomT, n, price, 0, 0, occupancy, c⟩, clients')
      ∧ ∀ k, c = some k → ∃ cl, clients'.find k = some cl := by
  cases c with
  | none => exact ⟨clients, rfl, fun k hk => by cases hk⟩
  | some k =>
    obtain ⟨cl, hfind⟩ := hc k rfl
    rcases hto with h | ⟨d, hd⟩
    · cases h
    · refine ⟨_, Booking_new_of_cast roomNum roomT n price occupancy k clients cl d hfind hd, ?_⟩
      intro k' hk'
      injection hk' with hk'
      subst hk'
      exact ⟨_, UMap.find_set_self _ _ _⟩

theorem makeBooking_of_toInt (rm : RoomManager) (clients : Clients) (inp : SlotInput)
    (price : ℚ) (hprice : rm.getAdjustedPrice inp.roomNum = .ok price)
    (hto : inp.clientName = "" ∨ ∃ d, toInt (price * inp.nights / 20) = .ok d) :
    ∃ b clients' out, makeBooking rm clients inp = .ok (b, clients', out)
      ∧ b.occupancyRate = rm.getOccupancyRate
      ∧ ∀ k, b.client = some k → ∃ cl, clients'.find k = some cl := by
  have hc : ∀ k, (lookupClient clients inp.clientName).1 = some k →
      ∃ cl, (lookupClient clients inp.clientName).2.find k = some cl :=
    fun k hk => lookupClient_find clients inp.clientName k hk
  have hto' : (lookupClient clients inp.clientName).1 = none
      ∨ ∃ d, toInt (price * inp.nights / 20) = .ok d := by
    rcases hto with h | h
    · left
      simp only [lookupClient, h, if_true]
    · exact Or.inr h
  obtain ⟨clients', hnew, hcl⟩ := Booking_new_of_toInt inp.roomNum
    (if price > 1500 then "Suite" else "Single Room") inp.nights price rm.getOccupancyRate
    (lookupClient clients inp.clientName).1 (lookupClient clients inp.clientName).2 hc hto'
  obtain ⟨p, _, hsel⟩ := selectServices_fields inp.services
    ⟨inp.roomNum, if price > 1500 then "Suite" else "Single Room", inp.nights, price, 0, 0,
      rm.getOccupancyRate, (lookupClient clients inp.clientName).1⟩
  refine ⟨(selectServices ⟨inp.roomNum, if price > 1500 then "Suite" else "Single Room",
      inp.nights, price, 0, 0, rm.getOccupancyRate,
      (lookupClient clients inp.clientName).1⟩ inp.services).1, clients',
    (selectServices ⟨inp.roomNum, if price > 1500 then "Suite" else "Single Room",
      inp.nights, price, 0, 0, rm.getOccupancyRate,
      (lookupClient clients inp.clientName).1⟩ inp.services).2, ?_, ?_, ?_⟩
  · simp only [makeBooking, hprice, hnew]
  · rw [hsel]
  · rw [hsel]
    exact hcl

theorem rate_after_checkins (rd : UMap (String × ℚ)) (ks : List String) (hks : ks.Nodup) :
    (ks.foldl RoomManager.setOccupied (RoomManager.new rd)).getOccupancyRate
      = (ks.length : ℚ) / (rd.size : ℚ) * 100 := by
  obtain ⟨hrooms, hocc⟩ := foldl_setOccupied ks (RoomManager.new rd)
  have hcount := count_after_checkins ks (RoomManager.new rd).occupiedRooms hks
    (fun e he _ => new_all_vacant rd e he)
  have hzero : ((RoomManager.new rd).occupiedRooms.filter (fun p => p.2)).length = 0 := by
    rw [List.length_eq_zero, List.filter_eq_nil_iff]
    intro e he
    simp [new_all_vacant rd e he]
  simp only [RoomManager.getOccupancyRate, hrooms, hocc, hcount, hzero, zero_add]
  rfl

theorem UMap.mem_keys_of_find {β : Type} (m : UMap β) (k : String) (v : β)
    (h : m.find k = some v) : k ∈ m.keys := by
  induction m with
  | nil => cases h
  | cons e m ih =>
    obtain ⟨a, w⟩ := e
    by_cases hk : k = a
    · subst hk
      simp [UMap.keys]
    · have hne : (k == a) = false := by simpa using hk
      have h' : UMap.find m k = some v := by
        simpa [UMap.find, List.lookup, hne] using h
      have := ih h'
      simp only [UMap.keys, List.map_cons, List.mem_cons] at this ⊢
      exact Or.inr this

theorem length_le_of_nodup_subset (ks : List String) (l : List String) (hks : ks.Nodup)
    (hin : ∀ k ∈ ks, k ∈ l) : ks.length ≤ l.length :=
  (List.subperm_of_subset hks hin).length_le

theorem rate_range (k n : Nat) (hn : 0 < n) (hkn : k ≤ n) :
    0 ≤ (k : ℚ) / (n : ℚ) * 100 ∧ (k : ℚ) / (n : ℚ) * 100 ≤ 100 := by
  have hnq : (0 : ℚ) < n := by exact_mod_cast hn
  have hkq : (k : ℚ) ≤ n := by exact_mod_cast hkn
  have hk0 : (0 : ℚ) ≤ k := by exact_mod_cast Nat.zero_le k
  constructor
  · positivity
  · have : (k : ℚ) / n ≤ 1 := (div_le_one hnq).mpr hkq
    linarith

theorem initial_occupied_list :
    HotelState.initial.roomManager.occupiedRooms
      = [("503", false), ("502", false), ("501", false), ("403", false), ("402", false),
         ("401", false), ("303", false), ("302", false), ("301", false), ("202", false),
         ("201", false), ("102", false), ("101", false)] := by
  simp [HotelState.initial, RoomManager.new, roomDetails, UMap.set]

theorem occupied_list_after_101 :
    (HotelState.initial.roomManager.setOccupied "101").occupiedRooms
      = [("101", true), ("503", false), ("502", false), ("501", false), ("403", false),
         ("402", false), ("401", false), ("303", false), ("302", false), ("301", false),
         ("202", false), ("201", false), ("102", false)] := by
  simp [RoomManager.setOccupied, initial_occupied_list, UMap.set]

theorem foundOccupied_after_101 :
    foundOccupied (HotelState.initial.roomManager.setOccupied "101")
        (HotelState.initial.roomManager.setOccupied "101").getRooms = .ok true := by
  have hrooms : (HotelState.initial.roomManager.setOccupied "101").rooms = roomDetails := rfl
  have hget : (HotelState.initial.roomManager.setOccupied "101").getRooms = roomDetails := rfl
  rw [hget]
  simp [foundOccupied, RoomManager.isAvailable, occupied_list_after_101, hrooms, roomDetails,
    UMap.find, UMap.atKey, List.lookup]

theorem checkOut_of_unknown (st : HotelState) (roomNum : String)
    (hfound : foundOccupied st.roomManager st.roomManager.getRooms = .ok true)
    (hunknown : st.roomManager.rooms.find roomNum = none) :
    checkOut st roomNum
      = .ok ({ st with roomManager := st.roomManager.setVacant roomNum },
             ["Номер " ++ roomNum ++ " успешно освобожден."]) := by
  simp only [checkOut, hfound, RoomManager.isAvailable, hunknown]

theorem individualBooking_initial_101 :
    individualBooking HotelState.initial ⟨"101", 1, "", [0]⟩
      = .ok (⟨HotelState.initial.roomManager.setOccupied "101", []⟩,
             some (⟨"101", "Single Room", 1, 1000, 0, 0, 0, none⟩, 1000), []) := by
  have havail : HotelState.initial.roomManager.isAvailable "101" = .ok true := by
    simp only [RoomManager.isAvailable, initial_rooms_find_101, UMap.atKey,
      initial_occupied_find_101, Bool.not_false]
  have hprice : HotelState.initial.roomManager.getAdjustedPrice "101" = .ok 1000 := by
    simp only [RoomManager.getAdjustedPrice, UMap.atKey, initial_rooms_find_101]
  have hmake : makeBooking HotelState.initial.roomManager [] ⟨"101", 1, "", [0]⟩
      = .ok (⟨"101", "Single Room", 1, 1000, 0, 0, 0, none⟩, [], []) := by
    have hlt : ¬ ((1000 : ℚ) > 1500) := by norm_num
    simp only [makeBooking, lookupClient, hprice, initial_occupancyRate, Booking.new,
      selectServices, if_true, hlt, if_false]
  have h0 : Int.tdiv 0 10 = 0 := by decide
  have hcalc : Booking.calculateTotal ⟨"101", "Single Room", 1, 1000, 0, 0, 0, none⟩ []
      = .ok 1000 := by
    simp only [Booking.calculateTotal, toInt_zero, h0]
    norm_num
  have hclients : HotelState.initial.clients = [] := rfl
  simp only [individualBooking, havail, hclients, hmake, hcalc]

theorem runMenu_checkOutUnknown :
    runMenu HotelState.initial checkOutUnknown
      = .ok (⟨(HotelState.initial.roomManager.setOccupied "101").setVacant "999", []⟩,
             ["Номер 999 успешно освобожден."]) := by
  have hunknown : (HotelState.initial.roomManager.setOccupied "101").rooms.find "999"
      = none := by
    simp [RoomManager.setOccupied, HotelState.initial, RoomManager.new, roomDetails, UMap.find,
      List.lookup]
  have hco := checkOut_of_unknown ⟨HotelState.initial.roomManager.setOccupied "101", []⟩ "999"
    foundOccupied_after_101 hunknown
  have hmsg : "Номер " ++ "999" ++ " успешно освобожден." = "Номер 999 успешно освобожден." := by
    decide
  rw [hmsg] at hco
  simp only [runMenu, checkOutUnknown, menuStep, individualBooking_initial_101, hco,
    List.nil_append, List.append_nil]

/-- C18 (the code at the failing input): after room 101 is booked, the check-out
of the room number 999, which is not in the inventory, prints that the room was
released, and `occupiedRooms` gains an entry for 999. -/
theorem checkOut_unknown_room_reports_release :
    runMenu HotelState.initial checkOutUnknown
        = .ok (⟨(HotelState.initial.roomManager.setOccupied "101").setVacant "999", []⟩,
               ["Номер 999 успешно освобожден."])
      ∧ HotelState.initial.roomManager.getRooms.find "999" = none
      ∧ (HotelState.initial.roomManager.setOccupied "101").occupiedRooms.find "999" = none
      ∧ ((HotelState.initial.roomManager.setOccupied "101").setVacant "999").occupiedRooms.find
          "999" = some false := by
  refine ⟨runMenu_checkOutUnknown, ?_, ?_, ?_⟩
  · simp [RoomManager.getRooms, HotelState.initial, RoomManager.new, roomDetails, UMap.find,
      List.lookup]
  · simp [occupied_list_after_101, UMap.find, List.lookup]
  · simp only [RoomManager.setVacant, UMap.find_set_self]

/-! ## Occupied rooms belong to the inventory -/

theorem UMap.set_keys_nodup {β : Type} (m : UMap β) (k : String) (v : β)
    (h : m.keys.Nodup) : (m.set k v).keys.Nodup := by
  simp only [UMap.set, UMap.keys, List.map_cons, List.nodup_cons]
  constructor
  · intro hmem
    obtain ⟨e, he, hek⟩ := List.mem_map.mp hmem
    have := (List.mem_filter.mp he).2
    simp only [ne_eq, decide_not, Bool.not_eq_true', decide_eq_false_iff_not] at this
    exact this hek
  · exact List.Nodup.sublist (List.Sublist.map _ (List.filter_sublist m)) h

theorem UMap.find_of_mem_keys {β : Type} (m : UMap β) (k : String) (h : k ∈ m.keys) :
    ∃ v, m.find k = some v := by
  induction m with
  | nil => simp [UMap.keys] at h
  | cons e m ih =>
    obtain ⟨a, w⟩ := e
    by_cases hk : k = a
    · subst hk
      exact ⟨w, by simp [UMap.find, List.lookup]⟩
    · have hne : (k == a) = false := by simpa using hk
      have hmem : k ∈ UMap.keys m := by
        simp only [UMap.keys, List.map_cons, List.mem_cons] at h
        rcases h with h | h
        · exact absurd h hk
        · exact h
      obtain ⟨v, hv⟩ := ih hmem
      exact ⟨v, by simpa [UMap.find, List.lookup, hne] using hv⟩

theorem inventory_setOccupied (rm : RoomManager) (k : String) (hk : k ∈ roomDetails.keys)
    (h : OccupiedInInventory rm) : OccupiedInInventory (rm.setOccupied k) := by
  obtain ⟨hrooms, hocc, hnd⟩ := h
  refine ⟨hrooms, ?_, UMap.set_keys_nodup _ _ _ hnd⟩
  intro e he htrue
  simp only [RoomManager.setOccupied, UMap.set, List.mem_cons, List.mem_filter] at he
  rcases he with rfl | ⟨he, _⟩
  · exact hk
  · exact hocc e he htrue

theorem inventory_setVacant (rm : RoomManager) (k : String) (h : OccupiedInInventory rm) :
    OccupiedInInventory (rm.setVacant k) := by
  obtain ⟨hrooms, hocc, hnd⟩ := h
  refine ⟨hrooms, ?_, UMap.set_keys_nodup _ _ _ hnd⟩
  intro e he htrue
  simp only [RoomManager.setVacant, UMap.set, List.mem_cons, List.mem_filter] at he
  rcases he with rfl | ⟨he, _⟩
  · cases htrue
  · exact hocc e he htrue

theorem new_keys_nodup_aux (rd : UMap (String × ℚ)) :
    ∀ init : UMap Bool, init.keys.Nodup →
      (rd.foldl (fun occ room => occ.set room.1 false) init).keys.Nodup := by
  induction rd with
  | nil => intro init h; exact h
  | cons r rd ih =>
    intro init h
    exact ih _ (UMap.set_keys_nodup init r.1 false h)

theorem inventory_initial : OccupiedInInventory HotelState.initial.roomManager := by
  refine ⟨rfl, ?_, ?_⟩
  · intro e he htrue
    have := new_all_vacant roomDetails e he
    rw [this] at htrue
    cases htrue
  · exact new_keys_nodup_aux roomDetails [] (by simp [UMap.keys])

theorem isAvailable_true_find (rm : RoomManager) (k : String)
    (h : rm.isAvailable k = .ok true) : ∃ room, rm.rooms.find k = some room := by
  cases hfind : rm.rooms.find k with
  | none =>
    simp only [RoomManager.isAvailable, hfind] at h
    cases h
  | some room => exact ⟨room, rfl⟩

theorem individualBooking_roomManager (st st' : HotelState) (inp : SlotInput)
    (r : Option (Booking × ℚ)) (out : List String)
    (h : individualBooking st inp = .ok (st', r, out)) :
    st'.roomManager = st.roomManager
      ∨ (st.roomManager.isAvailable inp.roomNum = .ok true
          ∧ st'.roomManager = st.roomManager.setOccupied inp.roomNum) := by
  unfold individualBooking at h
  cases havail : st.roomManager.isAvailable inp.roomNum with
  | error f =>
    simp only [havail] at h
    cases h
  | ok a =>
    cases a with
    | false =>
      simp only [havail] at h
      injection h with h
      injection h with h1 _
      left
      rw [← h1]
    | true =>
      simp only [havail] at h
      cases hmake : makeBooking st.roomManager st.clients inp with
      | error f =>
        simp only [hmake] at h
        cases h
      | ok m =>
        obtain ⟨b, clients', out'⟩ := m
        simp only [hmake] at h
        cases hcalc : b.calculateTotal clients' with
        | error f =>
          simp only [hcalc] at h
          cases h
        | ok total =>
          simp only [hcalc] at h
          injection h with h
          injection h with h1 _
          right
          exact ⟨rfl, by rw [← h1]⟩

theorem checkOut_roomManager (st st' : HotelState) (roomNum : String) (out : List String)
    (h : checkOut st roomNum = .ok (st', out)) :
    st'.roomManager = st.roomManager ∨ st'.roomManager = st.roomManager.setVacant roomNum := by
  unfold checkOut at h
  cases hfound : foundOccupied st.roomManager st.roomManager.getRooms with
  | error f =>
    simp only [hfound] at h
    cases h
  | ok found =>
    cases found with
    | false =>
      simp only [hfound] at h
      injection h with h
      injection h with h1 _
      left
      rw [← h1]
    | true =>
      simp only [hfound] at h
      cases havail : st.roomManager.isAvailable roomNum with
      | error f =>
        simp only [havail] at h
        cases h
      | ok a =>
        cases a with
        | true =>
          simp only [havail] at h
          injection h with h
          injection h with h1 _
          left
          rw [← h1]
        | false =>
          simp only [havail] at h
          injection h with h
          injection h with h1 _
          right
          rw [← h1]

theorem groupLoop_rooms (rm : RoomManager) (inputs : List SlotInput) :
    ∀ (n : Nat) (clients : Clients) (acc : List Booking) (out : List String)
      (bs : List Booking) (clients' : Clients) (out' : List String),
      groupLoop rm n inputs clients acc out = .ok (bs, clients', out') →
      (∀ b ∈ acc, ∃ room, rm.rooms.find b.roomNumber = some room) →
      ∀ b ∈ bs, ∃ room, rm.rooms.find b.roomNumber = some room := by
  induction inputs with
  | nil =>
    intro n clients acc out bs clients' out' h hacc
    cases n with
    | zero =>
      simp only [groupLoop] at h
      injection h with h
      injection h with h1 _
      rw [← h1]
      exact hacc
    | succ n =>
      simp only [groupLoop] at h
      cases h
  | cons inp rest ih =>
    intro n clients acc out bs clients' out' h hacc
    cases n with
    | zero =>
      simp only [groupLoop] at h
      injection h with h
      injection h with h1 _
      rw [← h1]
      exact hacc
    | succ n =>
      simp only [groupLoop] at h
      cases havail : rm.isAvailable inp.roomNum with
      | error f =>
        simp only [havail] at h
        cases h
      | ok a =>
        cases a with
        | false =>
          simp only [havail] at h
          exact ih _ _ _ _ _ _ _ h hacc
        | true =>
          simp only [havail] at h
          cases hmake : makeBooking rm clients inp with
          | error f =>
            simp only [hmake] at h
            cases h
          | ok m =>
            obtain ⟨b0, clients0, out0⟩ := m
            simp only [hmake] at h
            refine ih _ _ _ _ _ _ _ h ?_
            intro b hb
            rcases List.mem_append.mp hb with hb | hb
            · exact hacc b hb
            · simp only [List.mem_singleton] at hb
              subst hb
              obtain ⟨price, cost, _, hform⟩ := makeBooking_booking rm clients clients0 inp b out0 hmake
              rw [hform]
              exact isAvailable_true_find rm inp.roomNum havail

theorem inventory_foldl_setOccupied (bs : List Booking) :
    ∀ rm : RoomManager, OccupiedInInventory rm →
      (∀ b ∈ bs, b.roomNumber ∈ roomDetails.keys) →
      OccupiedInInventory
        (bs.foldl (fun rm booking => rm.setOccupied booking.getRoomNumber) rm) := by
  induction bs with
  | nil => intro rm h _; exact h
  | cons b bs ih =>
    intro rm h hbs
    rw [List.foldl_cons]
    exact ih _ (inventory_setOccupied rm b.roomNumber (hbs b (List.mem_cons_self b bs)) h)
      (fun b' hb' => hbs b' (List.mem_cons_of_mem b hb'))

theorem groupBooking_inventory (st st' : HotelState) (numberOfRooms : Int)
    (inputs : List SlotInput) (r : List Booking × ℚ × List String)
    (h : groupBooking st numberOfRooms inputs = .ok (st', r))
    (hinv : OccupiedInInventory st.roomManager) : OccupiedInInventory st'.roomManager := by
  unfold groupBooking at h
  cases hloop : groupLoop st.roomManager numberOfRooms.toNat inputs st.clients [] [] with
  | error f =>
    simp only [hloop] at h
    cases h
  | ok l =>
    obtain ⟨bs, clients, out⟩ := l
    simp only [hloop] at h
    cases htotal : groupTotal clients 0 bs with
    | error f =>
      simp only [htotal] at h
      cases h
    | ok total =>
      simp only [htotal] at h
      injection h with h
      injection h with h1 _
      rw [← h1]
      apply inventory_foldl_setOccupied bs st.roomManager hinv
      intro b hb
      obtain ⟨room, hroom⟩ := groupLoop_rooms st.roomManager inputs _ _ _ _ _ _ _ hloop
        (fun b hb => by cases hb) b hb
      rw [hinv.1] at hroom
      exact UMap.mem_keys_of_find roomDetails b.roomNumber room hroom

theorem menuStep_inventory (st st' : HotelState) (action : MenuAction) (out : List String)
    (h : menuStep st action = .ok (st', out))
    (hinv : OccupiedInInventory st.roomManager) : OccupiedInInventory st'.roomManager := by
  cases action with
  | individual inp =>
    simp only [menuStep] at h
    cases hind : individualBooking st inp with
    | error f =>
      simp only [hind] at h
      cases h
    | ok r =>
      obtain ⟨st1, r1, out1⟩ := r
      simp only [hind] at h
      injection h with h
      injection h with h1 _
      rw [← h1]
      rcases individualBooking_roomManager st st1 inp r1 out1 hind with hsame | ⟨havail, hset⟩
      · rw [hsame]
        exact hinv
      · rw [hset]
        obtain ⟨room, hroom⟩ := isAvailable_true_find st.roomManager inp.roomNum havail
        rw [hinv.1] at hroom
        exact inventory_setOccupied _ _ (UMap.mem_keys_of_find roomDetails _ room hroom) hinv
  | group numberOfRooms inputs =>
    simp only [menuStep] at h
    cases hgrp : groupBooking st numberOfRooms inputs with
    | error f =>
      simp only [hgrp] at h
      cases h
    | ok r =>
      obtain ⟨st1, r1⟩ := r
      simp only [hgrp] at h
      injection h with h
      injection h with h1 _
      rw [← h1]
      exact groupBooking_inventory st st1 numberOfRooms inputs r1 hgrp hinv
  | checkOut roomNum =>
    simp only [menuStep] at h
    rcases checkOut_roomManager st st' roomNum out h with hsame | hset
    · rw [hsame]
      exact hinv
    · rw [hset]
      exact inventory_setVacant _ _ hinv

theorem runMenu_inventory (actions : List MenuAction) :
    ∀ (st st' : HotelState) (out : List String), runMenu st actions = .ok (st', out) →
      OccupiedInInventory st.roomManager → OccupiedInInventory st'.roomManager := by
  induction actions with
  | nil =>
    intro st st' out h hinv
    simp only [runMenu] at h
    injection h with h
    injection h with h1 _
    rw [← h1]
    exact hinv
  | cons action rest ih =>
    intro st st' out h hinv
    simp only [runMenu] at h
    cases hstep : menuStep st action with
    | error f =>
      simp only [hstep] at h
      cases h
    | ok r =>
      obtain ⟨st1, out1⟩ := r
      simp only [hstep] at h
      cases hrest : runMenu st1 rest with
      | error f =>
        simp only [hrest] at h
        cases h
      | ok r2 =>
        obtain ⟨st2, out2⟩ := r2
        simp only [hrest] at h
        injection h with h
        injection h with h1 _
        rw [← h1]
        exact ih st1 st2 out2 hrest (menuStep_inventory st st1 action out1 hstep hinv)

theorem rate_of_inventory (rm : RoomManager) (h : OccupiedInInventory rm) :
    0 ≤ rm.getOccupancyRate ∧ rm.getOccupancyRate ≤ 100 := by
  obtain ⟨hrooms, hocc, hnd⟩ := h
  have hsub : ((rm.occupiedRooms.filter (fun p => p.2)).map Prod.fst).Nodup :=
    List.Nodup.sublist (List.Sublist.map _ (List.filter_sublist rm.occupiedRooms)) hnd
  have hmem : ∀ k ∈ (rm.occupiedRooms.filter (fun p => p.2)).map Prod.fst,
      k ∈ roomDetails.keys := by
    intro k hk
    obtain ⟨e, he, rfl⟩ := List.mem_map.mp hk
    obtain ⟨he1, he2⟩ := List.mem_filter.mp he
    exact hocc e he1 he2
  have hlen := length_le_of_nodup_subset _ _ hsub hmem
  have hkeys : roomDetails.keys.length = 13 := rfl
  rw [List.length_map, hkeys] at hlen
  have hsize : rm.rooms.size = 13 := by
    rw [hrooms]
    rfl
  simp only [RoomManager.getOccupancyRate, hsize]
  exact rate_range _ 13 (by decide) hlen

/-- C20: in every state reached from the initial all-vacant inventory by any
sequence of menu actions (individual booking, group booking, check-out, with
arbitrary values entered), every room number whose occupancy flag is set belongs
to the inventory, and `getOccupancyRate` lies in `[0, 100]`. -/
theorem reachable_occupied_in_inventory (actions : List MenuAction) (st : HotelState)
    (out : List String) (h : runMenu HotelState.initial actions = .ok (st, out)) :
    (∀ e ∈ st.roomManager.occupiedRooms, e.2 = true →
        ∃ room, st.roomManager.getRooms.find e.1 = some room)
      ∧ 0 ≤ st.roomManager.getOccupancyRate
      ∧ st.roomManager.getOccupancyRate ≤ 100 := by
  have hinv := runMenu_inventory actions HotelState.initial st out h inventory_initial
  refine ⟨?_, rate_of_inventory _ hinv⟩
  intro e he htrue
  have hk := hinv.2.1 e he htrue
  have hrooms : st.roomManager.getRooms = roomDetails := hinv.1
  rw [hrooms]
  exact UMap.find_of_mem_keys roomDetails e.1 hk

/-- Witness for C20: the state after room 101 is booked and the unknown room
number 999 is checked out. -/
theorem reachable_occupied_in_inventory_witness :
    (∀ e ∈ ((HotelState.initial.roomManager.setOccupied "101").setVacant "999").occupiedRooms,
        e.2 = true →
          ∃ room, ((HotelState.initial.roomManager.setOccupied "101").setVacant
            "999").getRooms.find e.1 = some room)
      ∧ 0 ≤ ((HotelState.initial.roomManager.setOccupied "101").setVacant
          "999").getOccupancyRate
      ∧ ((HotelState.initial.roomManager.setOccupied "101").setVacant
          "999").getOccupancyRate ≤ 100 :=
  reachable_occupied_in_inventory checkOutUnknown
    ⟨(HotelState.initial.roomManager.setOccupied "101").setVacant "999", []⟩
    ["Номер 999 успешно освобожден."] runMenu_checkOutUnknown

/-! ## The room class label of a booking -/

theorem UMap.mem_of_find {β : Type} (m : UMap β) (k : String) (v : β)
    (h : m.find k = some v) : (k, v) ∈ m := by
  induction m with
  | nil => cases h
  | cons e m ih =>
    obtain ⟨a, w⟩ := e
    by_cases hk : k = a
    · subst hk
      have hw : w = v := by simpa [UMap.find, List.lookup] using h
      subst hw
      exact List.mem_cons_self _ _
    · have hne : (k == a) = false := by simpa using hk
      have h' : UMap.find m k = some v := by
        simpa [UMap.find, List.lookup, hne] using h
      exact List.mem_cons_of_mem _ (ih h')

theorem label_eq_class_iff (e : String × (String × ℚ)) (he : e ∈ roomDetails) :
    (if e.2.2 > 1500 then "Suite" else "Single Room") = e.2.1 ↔ e.2.1 ≠ "Double Room" := by
  simp only [roomDetails, List.mem_cons, List.mem_singleton, List.not_mem_nil, or_false] at he
  rcases he with rfl | rfl | rfl | rfl | rfl | rfl | rfl | rfl | rfl | rfl | rfl | rfl | rfl <;>
    norm_num <;> decide

/-- C21: the class label of a booking depends on the nightly rate alone, "Suite"
above 1500 and "Single Room" otherwise; for a room of the built-in inventory with
class `cls` and rate `rate`, a booking made in either booking flow (anonymously,
or with a point award that converts to `int`) carries that label, and the label
equals `cls` exactly when `cls` is not "Double Room". -/
theorem roomType_eq_class_iff_not_double (rm : RoomManager) (clients : Clients)
    (inp : SlotInput) (cls : String) (rate : ℚ) (hrooms : rm.rooms = roomDetails)
    (hroom : roomDetails.find inp.roomNum = some (cls, rate))
    (hpts : inp.clientName = "" ∨ ∃ d, toInt (rate * inp.nights / 20) = .ok d) :
    ∃ b clients' out, makeBooking rm clients inp = .ok (b, clients', out)
      ∧ b.roomType = (if rate > 1500 then "Suite" else "Single Room")
      ∧ (b.roomType = cls ↔ cls ≠ "Double Room") := by
  have hprice : rm.getAdjustedPrice inp.roomNum = .ok rate := by
    simp only [RoomManager.getAdjustedPrice, UMap.atKey, hrooms, hroom]
  obtain ⟨b, clients', out, hmake, _, _⟩ := makeBooking_of_toInt rm clients inp rate hprice hpts
  obtain ⟨price, cost, hprice', hb⟩ := makeBooking_booking rm clients clients' inp b out hmake
  have hpr : price = rate := by
    rw [hprice] at hprice'
    injection hprice' with h
    exact h.symm
  subst hpr
  have hlabel : b.roomType = (if price > 1500 then "Suite" else "Single Room") := by
    rw [hb]
  refine ⟨b, clients', out, hmake, hlabel, ?_⟩
  rw [hlabel]
  exact label_eq_class_iff (inp.roomNum, (cls, price))
    (UMap.mem_of_find roomDetails inp.roomNum (cls, price) hroom)

/-- Witness for C21: room 102, a Double Room at 1500 a night, booked anonymously
from the initial state is labelled "Single Room". -/
theorem roomType_eq_class_iff_not_double_witness :
    ∃ b clients' out,
      makeBooking HotelState.initial.roomManager [] book102Initial = .ok (b, clients', out)
        ∧ b.roomType = (if (1500 : ℚ) > 1500 then "Suite" else "Single Room")
        ∧ (b.roomType = "Double Room" ↔ "Double Room" ≠ "Double Room") :=
  roomType_eq_class_iff_not_double HotelState.initial.roomManager [] book102Initial
    "Double Room" 1500 rfl
    (by simp [book102Initial, roomDetails, UMap.find, List.lookup]) (Or.inl rfl)

/-! ## Double precision: rounding -/

theorem roundHalfEven_abs_sub_le (y : ℚ) : |y - (roundHalfEven y : ℚ)| ≤ 1 / 2 := by
  have h0 : 0 ≤ y - ⌊y⌋ := by linarith [Int.floor_le y]
  have h1 : y - ⌊y⌋ < 1 := by linarith [Int.lt_floor_add_one y]
  unfold roundHalfEven
  split_ifs with ha hb hc
  · rw [abs_le]; constructor <;> linarith
  · push_cast; rw [abs_le]; constructor <;> linarith
  · rw [abs_le]; constructor <;> linarith
  · push_cast; rw [abs_le]; constructor <;> linarith

theorem roundHalfEven_of_close (y : ℚ) (m : ℤ) (h : |y - (m : ℚ)| < 1 / 2) :
    roundHalfEven y = m := by
  have hle := roundHalfEven_abs_sub_le y
  have hlt : |((roundHalfEven y : ℤ) : ℚ) - (m : ℚ)| < 1 := by
    have h3 : ((roundHalfEven y : ℤ) : ℚ) - (m : ℚ)
        = (y - (m : ℚ)) - (y - (roundHalfEven y : ℚ)) := by ring
    rw [h3]
    calc |(y - (m : ℚ)) - (y - (roundHalfEven y : ℚ))|
        ≤ |y - (m : ℚ)| + |y - (roundHalfEven y : ℚ)| := abs_sub _ _
      _ < 1 := by linarith
  have hz : |roundHalfEven y - m| < 1 := by
    have : ((|roundHalfEven y - m| : ℤ) : ℚ) < 1 := by
      push_cast
      exact hlt
    exact_mod_cast this
  have := Int.abs_lt_one_iff.mp hz
  omega

theorem ulpExp_of_bounds (x : ℚ) (e : ℤ) (h1 : (2 : ℚ) ^ (e + 52) ≤ |x|)
    (h2 : |x| < (2 : ℚ) ^ (e + 53)) : ulpExp x = e := by
  have hpos : 0 < |x| := lt_of_lt_of_le (by positivity) h1
  have ha : e + 52 ≤ Int.log 2 |x| := by
    rw [← Int.zpow_le_iff_le_log (by norm_num) hpos]
    exact_mod_cast h1
  have hb : Int.log 2 |x| < e + 53 := by
    rw [← Int.lt_zpow_iff_log_lt (by norm_num) hpos]
    exact_mod_cast h2
  unfold ulpExp
  omega

theorem roundDouble_eq_of_close (x : ℚ) (m e : ℤ) (h1 : (2 : ℚ) ^ (e + 52) ≤ |x|)
    (h2 : |x| < (2 : ℚ) ^ (e + 53)) (hclose : |x / (2 : ℚ) ^ e - (m : ℚ)| < 1 / 2) :
    roundDouble x = (m : ℚ) * (2 : ℚ) ^ e := by
  have hpos : 0 < |x| := lt_of_lt_of_le (by positivity) h1
  have hx : x ≠ 0 := abs_pos.mp hpos
  have he := ulpExp_of_bounds x e h1 h2
  unfold roundDouble
  rw [if_neg hx, he, roundHalfEven_of_close _ m hclose]

theorem roundDouble_abs_sub_le (x : ℚ) : |roundDouble x - x| ≤ |x| * (2 : ℚ) ^ (-53 : ℤ) := by
  by_cases hx : x = 0
  · simp [roundDouble, hx]
  · have hpos : 0 < |x| := abs_pos.mpr hx
    have hq : (0 : ℚ) < (2 : ℚ) ^ ulpExp x := by positivity
    have hround := roundHalfEven_abs_sub_le (x / (2 : ℚ) ^ ulpExp x)
    have hlog : ((2 : ℕ) : ℚ) ^ Int.log 2 |x| ≤ |x| := Int.zpow_log_le_self (by norm_num) hpos
    have hsplit : (2 : ℚ) ^ ulpExp x = (2 : ℚ) ^ Int.log 2 |x| * (2 : ℚ) ^ (-52 : ℤ) := by
      unfold ulpExp
      rw [sub_eq_add_neg, zpow_add₀ (by norm_num)]
    have heq : roundDouble x - x
        = -((x / (2 : ℚ) ^ ulpExp x - (roundHalfEven (x / (2 : ℚ) ^ ulpExp x) : ℚ))
            * (2 : ℚ) ^ ulpExp x) := by
      unfold roundDouble
      rw [if_neg hx]
      field_simp
      ring
    rw [heq, abs_neg, abs_mul, abs_of_pos hq]
    have hlog' : (2 : ℚ) ^ Int.log 2 |x| ≤ |x| := by exact_mod_cast hlog
    calc |x / (2 : ℚ) ^ ulpExp x - (roundHalfEven (x / (2 : ℚ) ^ ulpExp x) : ℚ)|
          * (2 : ℚ) ^ ulpExp x
        ≤ 1 / 2 * (2 : ℚ) ^ ulpExp x := by
          exact mul_le_mul_of_nonneg_right hround (le_of_lt hq)
      _ = (2 : ℚ) ^ Int.log 2 |x| * (2 : ℚ) ^ (-53 : ℤ) := by
          rw [hsplit]
          norm_num
          ring
      _ ≤ |x| * (2 : ℚ) ^ (-53 : ℤ) := by
          exact mul_le_mul_of_nonneg_right hlog' (by positivity)

theorem roundDouble_eq_value (x v : ℚ) (m e : ℤ) (h1 : (2 : ℚ) ^ (e + 52) ≤ |x|)
    (h2 : |x| < (2 : ℚ) ^ (e + 53)) (hclose : |x / (2 : ℚ) ^ e - (m : ℚ)| < 1 / 2)
    (hv : v = (m : ℚ) * (2 : ℚ) ^ e) : roundDouble x = v := by
  rw [hv]
  exact roundDouble_eq_of_close x m e h1 h2 hclose

theorem roundDouble_zero : roundDouble 0 = 0 := by
  simp [roundDouble]

theorem roundDouble_one : roundDouble 1 = 1 :=
  roundDouble_eq_value 1 1 4503599627370496 (-52) (by norm_num) (by norm_num)
    (by norm_num) (by norm_num)

/-! ## The occupancy rate in double arithmetic -/

theorem rateDouble_after_checkins (rd : UMap (String × ℚ)) (ks : List String)
    (hks : ks.Nodup) :
    (ks.foldl RoomManager.setOccupied (RoomManager.new rd)).getOccupancyRateDouble
      = roundDouble (roundDouble ((ks.length : ℚ) / (rd.size : ℚ)) * 100) := by
  obtain ⟨hrooms, hocc⟩ := foldl_setOccupied ks (RoomManager.new rd)
  have hcount := count_after_checkins ks (RoomManager.new rd).occupiedRooms hks
    (fun e he _ => new_all_vacant rd e he)
  have hzero : ((RoomManager.new rd).occupiedRooms.filter (fun p => p.2)).length = 0 := by
    rw [List.length_eq_zero, List.filter_eq_nil_iff]
    intro e he
    simp [new_all_vacant rd e he]
  simp only [RoomManager.getOccupancyRateDouble, hrooms, hocc, hcount, hzero, zero_add]
  rfl

theorem two_roundings_error (x : ℚ) (hx : 0 ≤ x) :
    |roundDouble (roundDouble x * 100) - x * 100| ≤ x * 100 * (2 : ℚ) ^ (-51 : ℤ) := by
  have h1 := roundDouble_abs_sub_le x
  have h2 := roundDouble_abs_sub_le (roundDouble x * 100)
  rw [abs_of_nonneg hx] at h1
  have ha : |roundDouble x| ≤ x + x * (2 : ℚ) ^ (-53 : ℤ) := by
    have h3 : |roundDouble x| ≤ |roundDouble x - x| + |x| := by
      have := abs_add (roundDouble x - x) x
      simpa using this
    rw [abs_of_nonneg hx] at h3
    linarith
  have h100 : |roundDouble x * 100| = |roundDouble x| * 100 := by
    rw [abs_mul]
    norm_num
  rw [h100] at h2
  have hsplit : roundDouble (roundDouble x * 100) - x * 100
      = (roundDouble (roundDouble x * 100) - roundDouble x * 100)
        + (roundDouble x - x) * 100 := by ring
  have h4 : |(roundDouble x - x) * 100| = |roundDouble x - x| * 100 := by
    rw [abs_mul]
    norm_num
  have hu : (0 : ℚ) ≤ (2 : ℚ) ^ (-53 : ℤ) := by positivity
  calc |roundDouble (roundDouble x * 100) - x * 100|
      ≤ |roundDouble (roundDouble x * 100) - roundDouble x * 100|
          + |(roundDouble x - x) * 100| := by
        rw [hsplit]
        exact abs_add _ _
    _ ≤ |roundDouble x| * 100 * (2 : ℚ) ^ (-53 : ℤ) + x * (2 : ℚ) ^ (-53 : ℤ) * 100 := by
        rw [h4]
        have := mul_le_mul_of_nonneg_right h1 (by norm_num : (0 : ℚ) ≤ 100)
        linarith
    _ ≤ (x + x * (2 : ℚ) ^ (-53 : ℤ)) * 100 * (2 : ℚ) ^ (-53 : ℤ)
          + x * (2 : ℚ) ^ (-53 : ℤ) * 100 := by
        have h5 : |roundDouble x| * 100 ≤ (x + x * (2 : ℚ) ^ (-53 : ℤ)) * 100 :=
          mul_le_mul_of_nonneg_right ha (by norm_num)
        have := mul_le_mul_of_nonneg_right h5 hu
        linarith
    _ ≤ x * 100 * (2 : ℚ) ^ (-51 : ℤ) := by
        have hc : (1 + (2 : ℚ) ^ (-53 : ℤ)) * 100 * (2 : ℚ) ^ (-53 : ℤ)
            + (2 : ℚ) ^ (-53 : ℤ) * 100 ≤ 100 * (2 : ℚ) ^ (-51 : ℤ) := by norm_num
        have := mul_le_mul_of_nonneg_left hc hx
        linarith

/-- C6 (as amended): for every inventory of `n > 0` rooms (distinct room numbers),
all vacant as constructed, after `setOccupied` on `k` distinct rooms of the
inventory `getOccupancyRate` returns the `double` obtained by rounding `k / n` and
then rounding its product with `100`; this value differs from `k / n × 100` by at
most `k / n × 100 × 2^-51`, and `k / n × 100` is the result without rounding. -/
theorem occupancyRateDouble_after_checkins (rd : UMap (String × ℚ)) (ks : List String)
    (_hkeys : rd.keys.Nodup) (_hn : 0 < rd.size) (hks : ks.Nodup)
    (_hin : ∀ k ∈ ks, k ∈ rd.keys) :
    (ks.foldl RoomManager.setOccupied (RoomManager.new rd)).getOccupancyRateDouble
        = roundDouble (roundDouble ((ks.length : ℚ) / (rd.size : ℚ)) * 100)
      ∧ |(ks.foldl RoomManager.setOccupied (RoomManager.new rd)).getOccupancyRateDouble
            - (ks.length : ℚ) / (rd.size : ℚ) * 100|
          ≤ (ks.length : ℚ) / (rd.size : ℚ) * 100 * (2 : ℚ) ^ (-51 : ℤ)
      ∧ (ks.foldl RoomManager.setOccupied (RoomManager.new rd)).getOccupancyRate
          = (ks.length : ℚ) / (rd.size : ℚ) * 100 := by
  have h := rateDouble_after_checkins rd ks hks
  refine ⟨h, ?_, rate_after_checkins rd ks hks⟩
  rw [h]
  exact two_roundings_error _ (by positivity)

/-- Witness for C6: one of the two rooms of a two-room inventory is occupied; the
rate is the rounding of `1/2 × 100`. -/
theorem occupancyRateDouble_after_checkins_witness :
    (["101"].foldl RoomManager.setOccupied (RoomManager.new twoRooms)).getOccupancyRateDouble
        = roundDouble
            (roundDouble (((["101"] : List String).length : ℚ) / (twoRooms.size : ℚ)) * 100)
      ∧ |(["101"].foldl RoomManager.setOccupied
              (RoomManager.new twoRooms)).getOccupancyRateDouble
            - ((["101"] : List String).length : ℚ) / (twoRooms.size : ℚ) * 100|
          ≤ ((["101"] : List String).length : ℚ) / (twoRooms.size : ℚ) * 100
              * (2 : ℚ) ^ (-51 : ℤ)
      ∧ (["101"].foldl RoomManager.setOccupied (RoomManager.new twoRooms)).getOccupancyRate
          = ((["101"] : List String).length : ℚ) / (twoRooms.size : ℚ) * 100 :=
  occupancyRateDouble_after_checkins twoRooms ["101"]
    (by simp [twoRooms, UMap.keys]) (by simp [twoRooms, UMap.size]) (by simp)
    (by simp [twoRooms, UMap.keys])

theorem roundDouble_11_20 :
    roundDouble ((11 : ℚ) / 20) = 2476979795053773 / 4503599627370496 :=
  roundDouble_eq_value _ _ 4953959590107546 (-53) (by norm_num [abs_of_pos])
    (by norm_num [abs_of_pos]) (by norm_num [abs_lt]) (by norm_num)

theorem roundDouble_55 :
    roundDouble ((2476979795053773 : ℚ) / 4503599627370496 * 100)
      = 7740561859543041 / 140737488355328 :=
  roundDouble_eq_value _ _ 7740561859543041 (-47) (by norm_num [abs_of_pos])
    (by norm_num [abs_of_pos]) (by norm_num [abs_lt]) (by norm_num)

theorem roundDouble_5_13 :
    roundDouble ((5 : ℚ) / 13) = 6928614811339225 / 18014398509481984 :=
  roundDouble_eq_value _ _ 6928614811339225 (-54) (by norm_num [abs_of_pos])
    (by norm_num [abs_of_pos]) (by norm_num [abs_lt]) (by norm_num)

theorem roundDouble_38 :
    roundDouble ((6928614811339225 : ℚ) / 18014398509481984 * 100)
      = 2706490160679385 / 70368744177664 :=
  roundDouble_eq_value _ _ 5412980321358770 (-47) (by norm_num [abs_of_pos])
    (by norm_num [abs_of_pos]) (by norm_num [abs_lt]) (by norm_num)

/-- C6 (counterexample): with 11 of 20 rooms occupied `getOccupancyRate` returns
55.00000000000001 (that is `55 + 2^-47`), not `11/20 × 100 = 55`; with 5 of the 13
built-in rooms occupied it returns 38.46153846153847, not `5/13 × 100`. -/
theorem occupancyRateDouble_not_exact :
    (elevenOfTwenty.foldl RoomManager.setOccupied
        (RoomManager.new twentyRooms)).getOccupancyRateDouble
        = 7740561859543041 / 140737488355328
      ∧ (7740561859543041 : ℚ) / 140737488355328 = 55 + (2 : ℚ) ^ (-47 : ℤ)
      ∧ (7740561859543041 : ℚ) / 140737488355328
          ≠ (elevenOfTwenty.length : ℚ) / (twentyRooms.size : ℚ) * 100
      ∧ (fiveOfThirteen.foldl RoomManager.setOccupied
          (RoomManager.new roomDetails)).getOccupancyRateDouble
          = 2706490160679385 / 70368744177664
      ∧ (2706490160679385 : ℚ) / 70368744177664
          ≠ (fiveOfThirteen.length : ℚ) / (roomDetails.size : ℚ) * 100 := by
  have h20 : (twentyRooms.size : ℚ) = 20 := by
    have : twentyRooms.size = 20 := rfl
    rw [this]
    norm_num
  have h11 : (elevenOfTwenty.length : ℚ) = 11 := by
    have : elevenOfTwenty.length = 11 := rfl
    rw [this]
    norm_num
  have h13 : (roomDetails.size : ℚ) = 13 := by
    have : roomDetails.size = 13 := rfl
    rw [this]
    norm_num
  have h5 : (fiveOfThirteen.length : ℚ) = 5 := by
    have : fiveOfThirteen.length = 5 := rfl
    rw [this]
    norm_num
  refine ⟨?_, by norm_num, ?_, ?_, ?_⟩
  · rw [rateDouble_after_checkins twentyRooms elevenOfTwenty (by decide), h20, h11,
      roundDouble_11_20, roundDouble_55]
  · rw [h20, h11]
    norm_num
  · rw [rateDouble_after_checkins roomDetails fiveOfThirteen (by decide), h13, h5,
      roundDouble_5_13, roundDouble_38]
  · rw [h13, h5]
    norm_num

/-! ## The total in double arithmetic -/

theorem calculateTotalDouble_of_range (b : Booking) (clients : Clients)
    (hocc : 0 ≤ b.occupancyRate) (hrange : b.occupancyRate < 2147483648)
    (hclient : ∀ k, b.client = some k → ∃ cl, clients.find k = some cl) :
    b.calculateTotalDouble clients =
      .ok (match b.client with
        | none =>
          roundedManualTotal b.basePrice ⌊b.occupancyRate / 10⌋ b.nights b.serviceCost
            b.discount
        | some _ =>
          roundedLoyaltyStep
            (roundedManualTotal b.basePrice ⌊b.occupancyRate / 10⌋ b.nights b.serviceCost
              b.discount)
            (clientDiscount b clients)) := by
  have hto : toInt b.occupancyRate = .ok ⌊b.occupancyRate⌋ :=
    toInt_of_nonneg_of_le hocc (floor_le_INT_MAX_of_lt hrange)
  have hdiv : Int.tdiv ⌊b.occupancyRate⌋ 10 = ⌊b.occupancyRate / 10⌋ := tdiv_floor_ten hocc
  cases hc : b.client with
  | none =>
    simp only [Booking.calculateTotalDouble, hto, hdiv, hc, roundedManualTotal]
  | some k =>
    obtain ⟨cl, hcl⟩ := hclient k hc
    simp only [Booking.calculateTotalDouble, hto, hdiv, hc, hcl, clientDiscount,
      roundedManualTotal, roundedLoyaltyStep]

/-- C1 (as amended): for every booking whose occupancy snapshot lies in
`[0, 2^31)` and whose client pointer, when present, refers to a client of the
ledger, `calculateTotal` returns the value of
`(basePrice × (1 + ⌊occupancy/10⌋ × 0.05) × nights + serviceCost)
  × (1 − discount/100)`
evaluated in double arithmetic in the order of the source, followed for a booking
with a client by the step `total − total × (clientDiscount/100)`, also in double
arithmetic; computed without rounding the same steps give
`(basePrice × (1 + ⌊occupancy/10⌋ × 0.05) × nights + serviceCost)
  × (1 − discount/100) × (1 − clientDiscount/100)`,
which with no client and no services is
`basePrice × nights × (1 + ⌊occupancy/10⌋ × 0.05) × (1 − discount/100)`. -/
theorem calculateTotalDouble_formula (b : Booking) (clients : Clients)
    (hocc : 0 ≤ b.occupancyRate) (hrange : b.occupancyRate < 2147483648)
    (hclient : ∀ k, b.client = some k → ∃ cl, clients.find k = some cl) :
    b.calculateTotalDouble clients =
        .ok (match b.client with
          | none =>
            roundedManualTotal b.basePrice ⌊b.occupancyRate / 10⌋ b.nights b.serviceCost
              b.discount
          | some _ =>
            roundedLoyaltyStep
              (roundedManualTotal b.basePrice ⌊b.occupancyRate / 10⌋ b.nights b.serviceCost
                b.discount)
              (clientDiscount b clients))
      ∧ b.calculateTotal clients =
          .ok ((b.basePrice * (1 + (⌊b.occupancyRate / 10⌋ : ℚ) * (5 / 100)) * b.nights
                  + b.serviceCost)
                * (1 - b.discount / 100) * (1 - clientDiscount b clients / 100))
      ∧ (b.client = none → b.serviceCost = 0 →
          b.calculateTotal clients =
            .ok (b.basePrice * b.nights * (1 + (⌊b.occupancyRate / 10⌋ : ℚ) * (5 / 100))
                  * (1 - b.discount / 100))) :=
  ⟨calculateTotalDouble_of_range b clients hocc hrange hclient,
    calculateTotal_formula b clients hocc hrange hclient⟩

/-- Witness for C1: room 101, two nights at 50% occupancy, one sauna visit, a 10%
manual discount, and the client Ann holding 12000 points. -/
theorem calculateTotalDouble_formula_witness :
    sampleBooking.calculateTotalDouble [("Ann", ⟨"Ann", 12000⟩)] =
        .ok (match sampleBooking.client with
          | none =>
            roundedManualTotal sampleBooking.basePrice ⌊sampleBooking.occupancyRate / 10⌋
              sampleBooking.nights sampleBooking.serviceCost sampleBooking.discount
          | some _ =>
            roundedLoyaltyStep
              (roundedManualTotal sampleBooking.basePrice ⌊sampleBooking.occupancyRate / 10⌋
                sampleBooking.nights sampleBooking.serviceCost sampleBooking.discount)
              (clientDiscount sampleBooking [("Ann", ⟨"Ann", 12000⟩)])) :=
  (calculateTotalDouble_formula sampleBooking [("Ann", ⟨"Ann", 12000⟩)]
    (by norm_num [sampleBooking]) (by norm_num [sampleBooking])
    (by
      intro k hk
      refine ⟨⟨"Ann", 12000⟩, ?_⟩
      have hk' : k = "Ann" := by
        simp only [sampleBooking, Option.some.injEq] at hk
        exact hk.symm
      subst hk'
      simp [UMap.find, List.lookup])).1

theorem roundDouble_005 :
    roundDouble ((5 : ℚ) / 100) = 3602879701896397 / 72057594037927936 :=
  roundDouble_eq_value _ _ 7205759403792794 (-57) (by norm_num [abs_of_pos])
    (by norm_num [abs_of_pos]) (by norm_num [abs_lt]) (by norm_num)

theorem roundDouble_01 :
    roundDouble ((2 : ℚ) * (3602879701896397 / 72057594037927936))
      = 3602879701896397 / 36028797018963968 :=
  roundDouble_eq_value _ _ 7205759403792794 (-56) (by norm_num [abs_of_pos])
    (by norm_num [abs_of_pos]) (by norm_num [abs_lt]) (by norm_num)

theorem roundDouble_11 :
    roundDouble ((1 : ℚ) + 3602879701896397 / 36028797018963968)
      = 2476979795053773 / 2251799813685248 :=
  roundDouble_eq_value _ _ 4953959590107546 (-52) (by norm_num [abs_of_pos])
    (by norm_num [abs_of_pos]) (by norm_num [abs_lt]) (by norm_num)

theorem roundDouble_1650 :
    roundDouble ((1500 : ℚ) * (2476979795053773 / 2251799813685248))
      = 7256776743321601 / 4398046511104 :=
  roundDouble_eq_value _ _ 7256776743321601 (-42) (by norm_num [abs_of_pos])
    (by norm_num [abs_of_pos]) (by norm_num [abs_lt]) (by norm_num)

theorem roundDouble_1650_again :
    roundDouble ((7256776743321601 : ℚ) / 4398046511104) = 7256776743321601 / 4398046511104 :=
  roundDouble_eq_value _ _ 7256776743321601 (-42) (by norm_num [abs_of_pos])
    (by norm_num [abs_of_pos]) (by norm_num [abs_lt]) (by norm_num)

theorem roundedManualTotal_room102At20 :
    roundedManualTotal 1500 2 1 0 0 = 7256776743321601 / 4398046511104 := by
  unfold roundedManualTotal
  have h2 : ((2 : ℤ) : ℚ) = 2 := by norm_num
  have h1 : ((1 : ℤ) : ℚ) = 1 := by norm_num
  rw [h2, h1, roundDouble_005, roundDouble_01, roundDouble_11, roundDouble_1650, mul_one,
    roundDouble_1650_again, add_zero, roundDouble_1650_again, zero_div, roundDouble_zero,
    sub_zero, roundDouble_one, mul_one, roundDouble_1650_again]

theorem roundDouble_3_13 :
    roundDouble ((3 : ℚ) / 13) = 4157168886803535 / 18014398509481984 :=
  roundDouble_eq_value _ _ 8314337773607070 (-55) (by norm_num [abs_of_pos])
    (by norm_num [abs_of_pos]) (by norm_num [abs_lt]) (by norm_num)

theorem roundDouble_23 :
    roundDouble ((4157168886803535 : ℚ) / 18014398509481984 * 100)
      = 6495576385630523 / 281474976710656 :=
  roundDouble_eq_value _ _ 6495576385630523 (-48) (by norm_num [abs_of_pos])
    (by norm_num [abs_of_pos]) (by norm_num [abs_lt]) (by norm_num)

theorem toInt_20 : toInt (20 : ℚ) = .ok 20 := by
  have h := toInt_intCast 20 (by decide) (by decide)
  simpa using h

/-- C1 (counterexample): the booking of room 102 (1500 a night) for one night at
the snapshot 20, without services, discount or client, has the formula value
`1500 × (1 + 2 × 0.05) = 1650`, but `calculateTotal` returns 1650.0000000000002
(that is `1650 + 2^-42`); the same holds at the snapshot 23.076923076923077 that
`getOccupancyRate` returns when 3 of the 13 built-in rooms are occupied; and a
booking with the non-negative snapshot `2^31` has no defined total. -/
theorem calculateTotalDouble_differs_from_formula :
    room102At20.calculateTotalDouble [] = .ok (7256776743321601 / 4398046511104)
      ∧ (7256776743321601 : ℚ) / 4398046511104 = 1650 + (2 : ℚ) ^ (-42 : ℤ)
      ∧ (room102At20.basePrice * (1 + (⌊room102At20.occupancyRate / 10⌋ : ℚ) * (5 / 100))
              * room102At20.nights + room102At20.serviceCost)
            * (1 - room102At20.discount / 100) * (1 - clientDiscount room102At20 [] / 100)
          = 1650
      ∧ room102At20.calculateTotalDouble [] ≠
          .ok ((room102At20.basePrice
                  * (1 + (⌊room102At20.occupancyRate / 10⌋ : ℚ) * (5 / 100))
                  * room102At20.nights + room102At20.serviceCost)
                * (1 - room102At20.discount / 100)
                * (1 - clientDiscount room102At20 [] / 100))
      ∧ (threeOfThirteen.foldl RoomManager.setOccupied
          (RoomManager.new roomDetails)).getOccupancyRateDouble
          = room102AtThreeOfThirteen.occupancyRate
      ∧ room102AtThreeOfThirteen.calculateTotalDouble []
          = .ok (7256776743321601 / 4398046511104)
      ∧ (room102AtThreeOfThirteen.basePrice
              * (1 + (⌊room102AtThreeOfThirteen.occupancyRate / 10⌋ : ℚ) * (5 / 100))
              * room102AtThreeOfThirteen.nights + room102AtThreeOfThirteen.serviceCost)
            * (1 - room102AtThreeOfThirteen.discount / 100)
            * (1 - clientDiscount room102AtThreeOfThirteen [] / 100)
          = 1650
      ∧ 0 ≤ hugeOccupancyBooking.occupancyRate
      ∧ hugeOccupancyBooking.calculateTotalDouble [] = .error .undefined := by
  have hfloor3 : ⌊room102AtThreeOfThirteen.occupancyRate / 10⌋ = 2 := by
    rw [Int.floor_eq_iff]
    norm_num [room102AtThreeOfThirteen]
  have hcalc3 : room102AtThreeOfThirteen.calculateTotalDouble []
      = .ok (7256776743321601 / 4398046511104) := by
    have h := calculateTotalDouble_of_range room102AtThreeOfThirteen []
      (by norm_num [room102AtThreeOfThirteen]) (by norm_num [room102AtThreeOfThirteen])
      (fun k hk => by cases hk)
    rw [h, hfloor3]
    show Except.ok (roundedManualTotal 1500 2 1 0 0) = _
    rw [roundedManualTotal_room102At20]
  have hformula3 : (room102AtThreeOfThirteen.basePrice
        * (1 + (⌊room102AtThreeOfThirteen.occupancyRate / 10⌋ : ℚ) * (5 / 100))
        * room102AtThreeOfThirteen.nights + room102AtThreeOfThirteen.serviceCost)
      * (1 - room102AtThreeOfThirteen.discount / 100)
      * (1 - clientDiscount room102AtThreeOfThirteen [] / 100)
      = 1650 := by
    rw [hfloor3]
    norm_num [room102AtThreeOfThirteen, clientDiscount]
  have hrate : (threeOfThirteen.foldl RoomManager.setOccupied
      (RoomManager.new roomDetails)).getOccupancyRateDouble
      = room102AtThreeOfThirteen.occupancyRate := by
    have h13 : (roomDetails.size : ℚ) = 13 := by
      have : roomDetails.size = 13 := rfl
      rw [this]
      norm_num
    have h3 : (threeOfThirteen.length : ℚ) = 3 := by
      have : threeOfThirteen.length = 3 := rfl
      rw [this]
      norm_num
    rw [rateDouble_after_checkins roomDetails threeOfThirteen (by decide), h13, h3,
      roundDouble_3_13, roundDouble_23]
    rfl
  have hfloor : ⌊room102At20.occupancyRate / 10⌋ = 2 := by
    rw [Int.floor_eq_iff]
    norm_num [room102At20]
  have hcalc : room102At20.calculateTotalDouble [] = .ok (7256776743321601 / 4398046511104) := by
    have h := calculateTotalDouble_of_range room102At20 [] (by norm_num [room102At20])
      (by norm_num [room102At20]) (fun k hk => by cases hk)
    rw [h, hfloor]
    show Except.ok (roundedManualTotal 1500 2 1 0 0) = _
    rw [roundedManualTotal_room102At20]
  have hformula : (room102At20.basePrice
        * (1 + (⌊room102At20.occupancyRate / 10⌋ : ℚ) * (5 / 100))
        * room102At20.nights + room102At20.serviceCost)
      * (1 - room102At20.discount / 100) * (1 - clientDiscount room102At20 [] / 100)
      = 1650 := by
    rw [hfloor]
    norm_num [room102At20, clientDiscount]
  have hto : toInt hugeOccupancyBooking.occupancyRate = .error .undefined :=
    toInt_of_ge (by norm_num [hugeOccupancyBooking])
  refine ⟨hcalc, by norm_num, hformula, ?_, hrate, hcalc3, hformula3,
    by norm_num [hugeOccupancyBooking], ?_⟩
  · rw [hcalc, hformula]
    intro h
    injection h with h
    norm_num at h
  · simp only [Booking.calculateTotalDouble, hto]

end NarkoHotel
